import Mathlib

/-!
# Verification of the python-snmp SNMPv3 core

A shallow embedding of the SNMPv3 message-processing and USM privacy code of
the `snmp` Python package, together with proofs of the specified properties.

Byte strings are modelled as `List Nat` (each element a byte value); Python
exceptions are modelled with `Except SnmpErr`; the mutable objects
(`DesCbc`, `Aes128Cfb`, the message processor) are modelled by explicit state
passing.
-/

/-- The exception classes raised by the embedded code
(`snmp.ber.ParseError`, `snmp.message.v3` errors, USM errors, `ValueError`). -/
inductive SnmpErr where
  | parseError (msg : String)
  | badVersion
  | unknownSecurityModel (value : Int)
  | invalidMessage
  | valueError (msg : String)
  | responseMismatch (field : String)
  | lateResponse
  | unsupportedFeature
  | decryptionError
  | allocationFailure
  deriving DecidableEq, Repr

abbrev Bytes := List Nat

/-! ## `snmp.security.SecurityLevel` (src/snmp/security/__init__.py) -/

/-- The `(auth, priv)` pair held by a `SecurityLevel` object
(its `_auth` / `_priv` attributes). -/
structure SecurityLevel where
  auth : Bool
  priv : Bool
  deriving DecidableEq, Repr

/-- The `auth` property setter: raises `ValueError` when disabling
authentication while privacy is enabled. -/
def SecurityLevel.setAuth (sl : SecurityLevel) (value : Bool) :
    Except SnmpErr SecurityLevel :=
  if !value && sl.priv then
    .error (.valueError "Cannot disable authentication while privacy is enabled")
  else
    .ok { sl with auth := value }

/-- The `priv` property setter: raises `ValueError` when enabling privacy
while authentication is disabled. -/
def SecurityLevel.setPriv (sl : SecurityLevel) (value : Bool) :
    Except SnmpErr SecurityLevel :=
  if value && !sl.auth then
    .error (.valueError "Cannot enable privacy while authentication is disabled")
  else
    .ok { sl with priv := value }

/-- `SecurityLevel.__init__`: starts from `_auth = _priv = False` and runs
both property setters. -/
def mkSecurityLevel (auth priv : Bool) : Except SnmpErr SecurityLevel := do
  let sl : SecurityLevel := ⟨false, false⟩
  let sl ← sl.setAuth auth
  sl.setPriv priv

/-- `SecurityLevel.__lt__`. -/
def SecurityLevel.lt (a b : SecurityLevel) : Bool :=
  if a.auth then b.priv && !a.priv else b.auth

/-- `SecurityLevel.__ge__`: literally `not self < other`. -/
def SecurityLevel.ge (a b : SecurityLevel) : Bool :=
  !(a.lt b)

/-- `SecurityLevel.__eq__`. -/
def SecurityLevel.eqb (a b : SecurityLevel) : Bool :=
  a.auth == b.auth && a.priv == b.priv

def noAuthNoPriv : SecurityLevel := ⟨false, false⟩
def authNoPriv : SecurityLevel := ⟨true, false⟩
def authPriv : SecurityLevel := ⟨true, true⟩

/-- The `priv ⇒ auth` invariant. -/
def SecurityLevel.legal (sl : SecurityLevel) : Prop :=
  sl.priv → sl.auth

instance (sl : SecurityLevel) : Decidable sl.legal := by
  unfold SecurityLevel.legal; infer_instance

/-- Protection rank of a level: 0, 1 or 2. -/
def SecurityLevel.rank (sl : SecurityLevel) : Nat :=
  (if sl.auth then 1 else 0) + (if sl.priv then 1 else 0)

/-! ## `MessageFlags` (src/snmp/message/v3.py, lines 44-124) -/

/-- `MessageFlags`: a `SecurityLevel` plus the reportable flag. -/
structure MessageFlags where
  securityLevel : SecurityLevel
  reportableFlag : Bool
  deriving DecidableEq, Repr

def AUTH_FLAG : Nat := 1
def PRIV_FLAG : Nat := 2
def REPORTABLE_FLAG : Nat := 4

/-- `MessageFlags.interpret` applied to the first content byte: builds a
`SecurityLevel` from `byte & AUTH_FLAG` and `byte & PRIV_FLAG` (Python
truthiness of the masked ints) and reads the reportable bit. -/
def MessageFlags.interpret (byte : Nat) : Except SnmpErr MessageFlags := do
  let securityLevel ← mkSecurityLevel
    (byte &&& AUTH_FLAG != 0)
    (byte &&& PRIV_FLAG != 0)
  let reportable := byte &&& REPORTABLE_FLAG != 0
  .ok ⟨securityLevel, reportable⟩

/-- `MessageFlags.authFlag` property. -/
def MessageFlags.authFlag (f : MessageFlags) : Bool :=
  f.securityLevel.auth

/-- `MessageFlags.privFlag` property. -/
def MessageFlags.privFlag (f : MessageFlags) : Bool :=
  f.securityLevel.priv

/-- `MessageFlags.data` property: re-assembles the flag byte from the three
flags. -/
def MessageFlags.data (f : MessageFlags) : Nat :=
  (if f.authFlag then AUTH_FLAG else 0) |||
  (if f.privFlag then PRIV_FLAG else 0) |||
  (if f.reportableFlag then REPORTABLE_FLAG else 0)

/-- The `authFlag` property setter: rebuilds the `SecurityLevel` (which may
raise `ValueError`) only when the value changes. -/
def MessageFlags.setAuthFlag (f : MessageFlags) (value : Bool) :
    Except SnmpErr MessageFlags :=
  if value != f.securityLevel.auth then do
    let sl ← mkSecurityLevel value f.securityLevel.priv
    .ok { f with securityLevel := sl }
  else
    .ok f

/-- The `privFlag` property setter. -/
def MessageFlags.setPrivFlag (f : MessageFlags) (value : Bool) :
    Except SnmpErr MessageFlags :=
  if value != f.securityLevel.priv then do
    let sl ← mkSecurityLevel f.securityLevel.auth value
    .ok { f with securityLevel := sl }
  else
    .ok f

/-! ## BER decoding layer

`snmp/ber.py` and `snmp/types.py` are not part of the sources at hand; the
decoders below are modelled from the specification of the BER codec
(definite-form lengths, minimal two's-complement INTEGER contents,
raw OCTET STRING contents, identifier-tagged TLV framing). -/

/-- Big-endian interpretation of a byte list. -/
def beNat (bs : Bytes) : Nat :=
  bs.foldl (fun acc b => acc * 256 + b) 0

/-- Modelled from the spec: BER definite-form length decoding.
Short form (< 128) is one byte; long form is `0x80 | N` followed by `N`
big-endian length bytes.  The indefinite form (0x80) is rejected. -/
def decodeLength : Bytes → Except SnmpErr (Nat × Bytes)
  | [] => .error (.parseError "missing length byte")
  | b :: rest =>
    if b < 128 then .ok (b, rest)
    else
      let n := b - 128
      if n = 0 then .error (.parseError "indefinite length not supported")
      else if rest.length < n then .error (.parseError "incomplete length")
      else .ok (beNat (rest.take n), rest.drop n)

/-- Modelled from the spec: decode one TLV datum whose identifier byte must
equal `expected`; returns the contents and the remaining bytes.  A nested
length exceeding the available bytes is a `ParseError`. -/
def decodeTLV (expected : Nat) (data : Bytes) : Except SnmpErr (Bytes × Bytes) :=
  match data with
  | [] => .error (.parseError "missing identifier")
  | b :: rest =>
    if b ≠ expected then .error (.parseError "unexpected identifier")
    else do
      let (len, rest) ← decodeLength rest
      if rest.length < len then .error (.parseError "incomplete contents")
      else .ok (rest.take len, rest.drop len)

/-- Modelled from the spec: INTEGER contents are two's-complement big-endian
with minimal encoding (no redundant leading `0x00`/`0xFF` byte). -/
def decodeIntegerContents : Bytes → Except SnmpErr Int
  | [] => .error (.parseError "empty INTEGER contents")
  | b :: rest =>
    let nonMinimal :=
      match rest with
      | [] => false
      | b2 :: _ => (b = 0 && b2 < 128) || (b = 255 && 128 ≤ b2)
    if nonMinimal then .error (.parseError "non-minimal INTEGER encoding")
    else
      let n := beNat (b :: rest)
      if b ≥ 128 then .ok ((n : Int) - (256 : Int) ^ (rest.length + 1))
      else .ok (n : Int)

/-- `Integer.decode(data, leftovers=True)`. -/
def integerDecodeL (data : Bytes) : Except SnmpErr (Int × Bytes) := do
  let (contents, rest) ← decodeTLV 0x02 data
  let value ← decodeIntegerContents contents
  .ok (value, rest)

/-- `Integer.decode(data)`: the datum must consume the whole input. -/
def integerDecode (data : Bytes) : Except SnmpErr Int := do
  let (value, rest) ← integerDecodeL data
  if rest = [] then .ok value else .error (.parseError "trailing bytes")

/-- `OctetString.decode(data, leftovers=True)`. -/
def octetStringDecodeL (data : Bytes) : Except SnmpErr (Bytes × Bytes) :=
  decodeTLV 0x04 data

/-- `OctetString.decode(data)`: the datum must consume the whole input. -/
def octetStringDecode (data : Bytes) : Except SnmpErr Bytes := do
  let (value, rest) ← octetStringDecodeL data
  if rest = [] then .ok value else .error (.parseError "trailing bytes")

/-- `MessageFlags.decode(data, leftovers=True)`: an OCTET STRING whose
contents must be at least `MIN_SIZE = 1` byte; `interpret` reads byte 0. -/
def messageFlagsDecodeL (data : Bytes) : Except SnmpErr (MessageFlags × Bytes) := do
  let (contents, rest) ← decodeTLV 0x04 data
  match contents with
  | [] => .error (.parseError "MessageFlags must be at least 1 byte")
  | b :: _ => do
    let flags ← MessageFlags.interpret b
    .ok (flags, rest)

/-! ## `HeaderData` (src/snmp/message/v3.py, lines 127-198) -/

/-- `HeaderData`: the four decoded header fields.  `securityModel` keeps the
raw enum value (`SecurityModel.USM = 3` is the only member). -/
structure HeaderData where
  id : Int
  maxSize : Int
  flags : MessageFlags
  securityModel : Int
  deriving DecidableEq, Repr

/-- `HeaderData.deserialize`: decode the four fields, enforce the numeric
lower bounds, and wrap an unknown securityModel value into
`UnknownSecurityModel`. -/
def headerDataDeserialize (data : Bytes) : Except SnmpErr HeaderData := do
  let (msgID, data) ← integerDecodeL data
  let (msgMaxSize, data) ← integerDecodeL data
  let (msgFlags, data) ← messageFlagsDecodeL data
  let msgSecurityModel ← integerDecode data
  if msgID < 0 then
    .error (.parseError "msgID may not be less than 0")
  else if msgMaxSize < 484 then
    .error (.parseError "msgMaxSize may not be less than 484")
  else if msgSecurityModel < 1 then
    .error (.parseError "msgSecurityModel may not be less than 1")
  else if msgSecurityModel ≠ 3 then
    .error (.unknownSecurityModel msgSecurityModel)
  else
    .ok ⟨msgID, msgMaxSize, msgFlags, msgSecurityModel⟩

/-- `HeaderData.decode(data, leftovers=True)`: a SEQUENCE TLV whose contents
are passed to `deserialize`. -/
def headerDataDecodeL (data : Bytes) : Except SnmpErr (HeaderData × Bytes) := do
  let (contents, rest) ← decodeTLV 0x30 data
  let header ← headerDataDeserialize contents
  .ok (header, rest)

/-! ## PDU variants (spec §4.2; `snmp/pdu.py` is not in the sources) -/

/-- Modelled from the spec: a PDU is an application-tagged constructed datum
with tags 0xA0..0xA8; the claims only inspect its tag and classification, so
the body is kept as raw contents bytes. -/
structure PDU where
  tag : Nat
  body : Bytes
  deriving DecidableEq, Repr

/-- The identifiers registered in `pduTypes` (Get, GetNext, Response, Set,
GetBulk, Inform, SNMPv2-Trap, Report; 0xA4 is the unused v1-Trap). -/
def pduTypeTags : List Nat := [0xA0, 0xA1, 0xA2, 0xA3, 0xA5, 0xA6, 0xA7, 0xA8]

/-- Modelled from the spec: `ResponsePDU` (0xA2) and `ReportPDU` (0xA8) are
the Response-class PDUs. -/
def PDU.isResponseClass (p : PDU) : Bool :=
  p.tag == 0xA2 || p.tag == 0xA8

/-- Modelled from the spec: `ReportPDU` is the only Internal PDU. -/
def PDU.isInternalClass (p : PDU) : Bool :=
  p.tag == 0xA8

/-- Modelled from the spec: `pduType.decode(data)` parses the tagged TLV and
must consume the whole input. -/
def pduDecode (tag : Nat) (data : Bytes) : Except SnmpErr PDU := do
  let (contents, rest) ← decodeTLV tag data
  if rest = [] then .ok ⟨tag, contents⟩
  else .error (.parseError "trailing bytes")

/-- Modelled from the spec: `Identifier.decode(subbytes(data))` peeks at the
next identifier octet.  The SNMP types in scope all use single-byte
identifiers (tag number < 31); the long form is rejected. -/
def decodeIdentifier : Bytes → Except SnmpErr Nat
  | [] => .error (.parseError "missing identifier")
  | b :: _ =>
    if b &&& 31 = 31 then .error (.parseError "long-form identifier")
    else .ok b

/-! ## `ScopedPDU` and `SNMPv3Message` (src/snmp/message/v3.py, lines 200-356) -/

/-- `ScopedPDU`: context identification plus the PDU. -/
structure ScopedPDU where
  pdu : PDU
  contextEngineID : Bytes
  contextName : Bytes
  deriving DecidableEq, Repr

/-- `ScopedPDU.deserialize` with `types = pduTypes`: decode the two context
OCTET STRINGs, peek at the next identifier, and dispatch; an identifier not
in the table is a `ParseError`. -/
def scopedPDUDeserialize (data : Bytes) : Except SnmpErr ScopedPDU := do
  let (contextEngineID, data) ← octetStringDecodeL data
  let (contextName, data) ← octetStringDecodeL data
  let identifier ← decodeIdentifier data
  if pduTypeTags.contains identifier then do
    let pdu ← pduDecode identifier data
    .ok ⟨pdu, contextEngineID, contextName⟩
  else
    .error (.parseError "Invalid PDU type")

/-- `ScopedPDU.decode(data, types=pduTypes, leftovers=True)`. -/
def scopedPDUDecodeL (data : Bytes) : Except SnmpErr (ScopedPDU × Bytes) := do
  let (contents, rest) ← decodeTLV 0x30 data
  let spdu ← scopedPDUDeserialize contents
  .ok (spdu, rest)

/-- `ScopedPDU.decode(data, types=pduTypes)`: must consume the whole input. -/
def scopedPDUDecode (data : Bytes) : Except SnmpErr ScopedPDU := do
  let (spdu, rest) ← scopedPDUDecodeL data
  if rest = [] then .ok spdu else .error (.parseError "trailing bytes")

/-- `SNMPv3Message`: header, security parameters, and either a cleartext
`ScopedPDU` or an encrypted OCTET STRING. -/
structure SNMPv3Message where
  header : HeaderData
  scopedPDU : Option ScopedPDU
  encryptedPDU : Option Bytes
  securityParameters : Bytes
  deriving DecidableEq, Repr

/-- `SNMPv3Message.deserialize` (on the contents of the outer SEQUENCE):
version must be 3 (else `BadVersion`), then the header, the raw
securityParameters OCTET STRING, and the payload selected by
`header.flags.privFlag`. -/
def snmpV3MessageDeserialize (data : Bytes) : Except SnmpErr SNMPv3Message := do
  let (msgVersion, ptr) ← integerDecodeL data
  if msgVersion ≠ 3 then .error .badVersion
  else do
    let (msgGlobalData, ptr) ← headerDataDecodeL ptr
    let (msgSecurityData, ptr) ← octetStringDecodeL ptr
    if msgGlobalData.flags.privFlag then do
      let encryptedPDU ← octetStringDecode ptr
      .ok ⟨msgGlobalData, none, some encryptedPDU, msgSecurityData⟩
    else do
      let scopedPDU ← scopedPDUDecode ptr
      .ok ⟨msgGlobalData, some scopedPDU, none, msgSecurityData⟩

/-! ## Message processor (src/snmp/message/v3.py, lines 370-538) -/

/-- `snmp.security.SecurityParameters`: the (engineID, userName) pair
returned by `processIncoming`. -/
structure SecurityParameters where
  securityEngineID : Bytes
  securityName : Bytes
  deriving DecidableEq, Repr

/-- `OldSNMPv3Message`: the value delivered to the waiting handle. -/
structure OldSNMPv3Message where
  id : Int
  securityLevel : SecurityLevel
  securityEngineID : Bytes
  securityName : Bytes
  data : ScopedPDU
  deriving DecidableEq, Repr

/-- `CacheEntry`: one outstanding request.  The weak reference to the handle
is modelled by an `Option`: `some h` when `entry.handle()` still returns the
live handle `h`, `none` when it has been released. -/
structure CacheEntry where
  context : Bytes
  engineID : Bytes
  handle : Option Nat
  securityName : Bytes
  securityModel : Int
  securityLevel : SecurityLevel
  deriving DecidableEq, Repr

/-- The `outstanding` dict, as an association list keyed by msgID. -/
abbrev CacheTable := List (Int × CacheEntry)

/-- `msgID in outstanding` / `outstanding[msgID]`. -/
def cacheLookup (table : CacheTable) (msgID : Int) : Option CacheEntry :=
  List.lookup msgID table

/-- `outstanding[msgID] = entry` (dict assignment). -/
def cacheInsert (table : CacheTable) (msgID : Int) (entry : CacheEntry) :
    CacheTable :=
  (msgID, entry) :: table

/-- `del outstanding[msgID]` with the `KeyError` swallowed: total removal. -/
def cacheErase (table : CacheTable) (msgID : Int) : CacheTable :=
  table.filter (fun p => p.1 != msgID)

/-- `SNMPv3MessageProcessor.uncache`: remove the entry if present, swallow
the `KeyError` otherwise. -/
def uncache (table : CacheTable) (msgID : Int) : CacheTable :=
  cacheErase table msgID

/-- One draw of `next(self.generator)` is modelled by an oracle `draws i`
giving the `i`-th number produced; reseeding (`self.generator =
self.newGenerator()`) makes the following draws come from the fresh
generator, which the oracle already accounts for.  The 31-bit range of
`NumberGenerator(31, signed=False)` is a hypothesis on the oracle. -/
def cacheAttempts (draws : Nat → Int) (table : CacheTable) (entry : CacheEntry)
    (i : Nat) : Nat → Except SnmpErr Int × CacheTable
  | 0 => (.error .allocationFailure, table)
  | fuel + 1 =>
    let msgID := draws i
    if msgID = 0 then
      cacheAttempts draws table entry (i + 1) fuel
    else if cacheLookup table msgID = none then
      (.ok msgID, cacheInsert table msgID entry)
    else
      cacheAttempts draws table entry (i + 1) fuel

/-- `SNMPv3MessageProcessor.cache`: up to 10 attempts to allocate a fresh
nonzero message ID. -/
def cache (draws : Nat → Int) (table : CacheTable) (entry : CacheEntry) :
    Except SnmpErr Int × CacheTable :=
  cacheAttempts draws table entry 0 10

/-- The state touched by `addSecurityModuleIfNeeded`; a security module is
kept abstract (type `M`) with its `MODEL` attribute read by a function. -/
structure SecState (M : Type) where
  securityModules : List (Int × M)
  defaultSecurityModel : Option Int

/-- `SNMPv3MessageProcessor.addSecurityModuleIfNeeded`. -/
def addSecurityModuleIfNeeded {M : Type} (MODEL : M → Int)
    (st : SecState M) (module : M) (default : Bool) : SecState M :=
  if (List.lookup (MODEL module) st.securityModules).isSome then
    st
  else
    { securityModules := (MODEL module, module) :: st.securityModules,
      defaultSecurityModel :=
        if default || st.defaultSecurityModel.isNone then some (MODEL module)
        else st.defaultSecurityModel }

/-- The behavior of a registered security module's `processIncoming`: maps
the bytes remaining after the header (securityParameters plus payload) and
the derived security level to the `SecurityParameters` and the plaintext. -/
abbrev SecMod := Bytes → SecurityLevel → Except SnmpErr (SecurityParameters × Bytes)

/-- The response-matching tail of `prepareDataElements` (lines 507-538 of
src/snmp/message/v3.py): the cache lookup, the weak-handle dereference, and
the five cross-checks in source order. -/
def matchResponse (outstanding : CacheTable) (msgID : Int)
    (securityLevel : SecurityLevel) (security : SecurityParameters)
    (scopedPDU : ScopedPDU) : Except SnmpErr (OldSNMPv3Message × Nat) :=
  if scopedPDU.pdu.isResponseClass then
    match cacheLookup outstanding msgID with
    | none => .error (.responseMismatch "Unknown msgID")
    | some entry =>
      match entry.handle with
      | none => .error .lateResponse
      | some handle =>
        let report := scopedPDU.pdu.isInternalClass
        if !report && entry.securityLevel.lt securityLevel then
          .error (.responseMismatch "Security Level")
        else if !report && entry.engineID ≠ security.securityEngineID then
          .error (.responseMismatch "Security Engine ID")
        else if entry.securityName ≠ security.securityName then
          .error (.responseMismatch "Security Name")
        else if !report && entry.engineID ≠ scopedPDU.contextEngineID then
          .error (.responseMismatch "Context Engine ID")
        else if entry.context ≠ scopedPDU.contextName then
          .error (.responseMismatch "Context Name")
        else
          .ok (⟨msgID, securityLevel,
                security.securityEngineID, security.securityName,
                scopedPDU⟩, handle)
  else
    .error .unsupportedFeature

/-- `SNMPv3MessageProcessor.prepareDataElements`, parametrized by the
registered security modules (`modules model` is the module for `model`, if
registered) and the current `outstanding` table.  A returned handle is the
`Nat` held by the still-live weak reference. -/
def prepareDataElements (modules : Int → Option SecMod)
    (outstanding : CacheTable) (msg : Bytes) :
    Except SnmpErr (OldSNMPv3Message × Nat) := do
  let (body, rest) ← decodeTLV 0x30 msg
  if rest ≠ [] then .error (.parseError "trailing bytes")
  else do
    let (msgVersion, msg) ← integerDecodeL body
    if msgVersion ≠ 3 then .error .badVersion
    else do
      let (msgGlobalData, msg) ← headerDataDecodeL msg
      let securityModule ←
        match modules msgGlobalData.securityModel with
        | some m => Except.ok m
        | none => Except.error (.unknownSecurityModel msgGlobalData.securityModel)
      let securityLevel ←
        match mkSecurityLevel msgGlobalData.flags.authFlag
            msgGlobalData.flags.privFlag with
        | .ok sl => Except.ok sl
        | .error _ => Except.error .invalidMessage
      let (security, data) ← securityModule msg securityLevel
      let (scopedPDU, _) ← scopedPDUDecodeL data
      matchResponse outstanding msgGlobalData.id securityLevel security
        scopedPDU

/-! ## Generic helpers -/

/-- Whether an `Except` result is a success. -/
def exceptIsOk : Except ε α → Bool
  | .ok _ => true
  | .error _ => false

/-- Every successful result satisfies the Boolean predicate. -/
def exceptOkSatisfies (p : α → Bool) : Except ε α → Bool
  | .ok a => p a
  | .error _ => true

instance {ε α : Type} [DecidableEq ε] [DecidableEq α] :
    DecidableEq (Except ε α)
  | .error a, .error b =>
    if h : a = b then .isTrue (by rw [h]) else .isFalse (by simp [h])
  | .error _, .ok _ => .isFalse (by simp)
  | .ok _, .error _ => .isFalse (by simp)
  | .ok a, .ok b =>
    if h : a = b then .isTrue (by rw [h]) else .isFalse (by simp [h])

/-! ## Claims C2 and C7 -/

/-- C2: every constructible `SecurityLevel` satisfies `priv ⇒ auth`: the
constructor and both property setters raise `ValueError` for exactly the
assignments that would yield `priv` without `auth` (the fourth combination is
unrepresentable), the three legal values are strictly totally ordered by
`__lt__` as noAuthNoPriv < authNoPriv < authPriv (characterized by the
protection rank), `__ge__` is the negation of `__lt__`, and the
`MessageFlags` flag setters preserve the invariant. -/
theorem securityLevel_invariant_and_total_order :
    (∀ a p : Bool, (p → a) → mkSecurityLevel a p = .ok ⟨a, p⟩)
  ∧ (∀ a p : Bool, p → ¬a → mkSecurityLevel a p =
      .error (.valueError "Cannot enable privacy while authentication is disabled"))
  ∧ (∀ a p v : Bool, (p → a) → (p → v) →
      SecurityLevel.setAuth ⟨a, p⟩ v = .ok ⟨v, p⟩)
  ∧ (∀ a p v : Bool, p → ¬v → SecurityLevel.setAuth ⟨a, p⟩ v =
      .error (.valueError "Cannot disable authentication while privacy is enabled"))
  ∧ (∀ a p v : Bool, (v → a) → SecurityLevel.setPriv ⟨a, p⟩ v = .ok ⟨a, v⟩)
  ∧ (∀ a p v : Bool, v → ¬a → SecurityLevel.setPriv ⟨a, p⟩ v =
      .error (.valueError "Cannot enable privacy while authentication is disabled"))
  ∧ (noAuthNoPriv.lt authNoPriv = true ∧ authNoPriv.lt authPriv = true
      ∧ noAuthNoPriv.lt authPriv = true)
  ∧ (∀ a p b q : Bool, (p → a) → (q → b) →
      (SecurityLevel.lt ⟨a, p⟩ ⟨b, q⟩ =
        decide (SecurityLevel.rank ⟨a, p⟩ < SecurityLevel.rank ⟨b, q⟩)))
  ∧ (∀ a p b q : Bool,
      SecurityLevel.ge ⟨a, p⟩ ⟨b, q⟩ = !SecurityLevel.lt ⟨a, p⟩ ⟨b, q⟩)
  ∧ (∀ a p r v : Bool, (p → a) →
      exceptOkSatisfies (fun f => !f.securityLevel.priv || f.securityLevel.auth)
        (MessageFlags.setAuthFlag ⟨⟨a, p⟩, r⟩ v) = true)
  ∧ (∀ a p r v : Bool, (p → a) →
      exceptOkSatisfies (fun f => !f.securityLevel.priv || f.securityLevel.auth)
        (MessageFlags.setPrivFlag ⟨⟨a, p⟩, r⟩ v) = true) :=
  ⟨by decide, by decide, by decide, by decide, by decide, by decide,
   by decide, by decide, by decide, by decide, by decide⟩

/-- Witness for C2 at concrete inputs: constructing `authPriv` succeeds and
disabling its `auth` raises `ValueError`. -/
theorem securityLevel_invariant_witness :
    mkSecurityLevel true true = .ok ⟨true, true⟩
  ∧ SecurityLevel.setAuth ⟨true, true⟩ false =
      .error (.valueError "Cannot disable authentication while privacy is enabled") :=
  ⟨securityLevel_invariant_and_total_order.1 true true (by decide),
   securityLevel_invariant_and_total_order.2.2.2.1 true true false (by decide)
     (by decide)⟩

/-- C7: for every byte `b`, `MessageFlags` decoding succeeds exactly when the
PRIV bit is clear or the AUTH bit is set, and the re-encoded byte of a
successful decode is `b & 0x07`. -/
theorem messageFlags_interpret_data_roundtrip :
    ∀ b : Nat, b < 256 →
      exceptIsOk (MessageFlags.interpret b) =
        (b &&& PRIV_FLAG == 0 || b &&& AUTH_FLAG != 0)
    ∧ exceptOkSatisfies (fun f => f.data == b &&& 7)
        (MessageFlags.interpret b) = true := by
  set_option maxRecDepth 8192 in decide

/-- Witness for C7: byte 0xFF decodes (AUTH set) and re-encodes to 0x07;
byte 0x02 (PRIV without AUTH) is rejected. -/
theorem messageFlags_interpret_data_roundtrip_witness :
    (exceptIsOk (MessageFlags.interpret 0xFF) =
        (0xFF &&& PRIV_FLAG == 0 || 0xFF &&& AUTH_FLAG != 0)
      ∧ exceptOkSatisfies (fun f => f.data == 0xFF &&& 7)
          (MessageFlags.interpret 0xFF) = true)
  ∧ (exceptIsOk (MessageFlags.interpret 0x02) =
        (0x02 &&& PRIV_FLAG == 0 || 0x02 &&& AUTH_FLAG != 0)
      ∧ exceptOkSatisfies (fun f => f.data == 0x02 &&& 7)
          (MessageFlags.interpret 0x02) = true) :=
  ⟨messageFlags_interpret_data_roundtrip 0xFF (by decide),
   messageFlags_interpret_data_roundtrip 0x02 (by decide)⟩

/-! ## Claims C9 and C10 -/

theorem cacheLookup_cons (k : Int) (v : CacheEntry) (t : CacheTable) (m : Int) :
    cacheLookup ((k, v) :: t) m = if m = k then some v else cacheLookup t m := by
  by_cases h : m = k
  · simp [cacheLookup, List.lookup, h]
  · have hb : (m == k) = false := beq_eq_false_iff_ne.mpr h
    simp [cacheLookup, List.lookup, hb, h]

theorem cacheErase_cons (k : Int) (v : CacheEntry) (t : CacheTable) (m : Int) :
    cacheErase ((k, v) :: t) m
      = if k = m then cacheErase t m else (k, v) :: cacheErase t m := by
  by_cases h : k = m <;> simp [cacheErase, List.filter_cons, h]

theorem cacheErase_of_absent (t : CacheTable) (m : Int)
    (h : cacheLookup t m = none) : cacheErase t m = t := by
  induction t with
  | nil => rfl
  | cons p t ih =>
    obtain ⟨k, v⟩ := p
    rw [cacheLookup_cons] at h
    by_cases hk : m = k
    · simp [hk] at h
    · simp only [hk, if_false] at h
      rw [cacheErase_cons, if_neg (fun hc => hk hc.symm), ih h]

theorem cacheLookup_erase_self (t : CacheTable) (m : Int) :
    cacheLookup (cacheErase t m) m = none := by
  induction t with
  | nil => rfl
  | cons p t ih =>
    obtain ⟨k, v⟩ := p
    rw [cacheErase_cons]
    by_cases hk : k = m
    · simpa [hk] using ih
    · rw [if_neg hk, cacheLookup_cons, if_neg (fun hc => hk hc.symm)]
      exact ih

theorem cacheLookup_erase_frame (t : CacheTable) (m k : Int) (hk : k ≠ m) :
    cacheLookup (cacheErase t m) k = cacheLookup t k := by
  induction t with
  | nil => rfl
  | cons p t ih =>
    obtain ⟨k2, v⟩ := p
    rw [cacheErase_cons]
    by_cases h2 : k2 = m
    · rw [if_pos h2, ih, cacheLookup_cons,
        if_neg (fun hc => hk (hc.trans h2))]
    · rw [if_neg h2, cacheLookup_cons, cacheLookup_cons, ih]

/-- C9: `uncache` never raises; it is the identity when the message ID is
absent, and when present it removes exactly that entry, leaving every other
message ID's entry unchanged. -/
theorem uncache_removes_exactly_msgID (table : CacheTable) (msgID : Int) :
    (cacheLookup table msgID = none → uncache table msgID = table)
  ∧ cacheLookup (uncache table msgID) msgID = none
  ∧ (∀ k : Int, k ≠ msgID →
      cacheLookup (uncache table msgID) k = cacheLookup table k) :=
  ⟨fun h => cacheErase_of_absent table msgID h,
   cacheLookup_erase_self table msgID,
   fun k hk => cacheLookup_erase_frame table msgID k hk⟩

/-- Witness for C9 on a concrete two-entry table. -/
theorem uncache_removes_exactly_msgID_witness :
    cacheLookup (uncache [(1, ⟨[], [], none, [], 3, ⟨false, false⟩⟩),
        (2, ⟨[1], [], none, [], 3, ⟨false, false⟩⟩)] 1) 1 = none
  ∧ cacheLookup (uncache [(1, ⟨[], [], none, [], 3, ⟨false, false⟩⟩),
        (2, ⟨[1], [], none, [], 3, ⟨false, false⟩⟩)] 1) 2
      = cacheLookup [(1, ⟨[], [], none, [], 3, ⟨false, false⟩⟩),
        (2, ⟨[1], [], none, [], 3, ⟨false, false⟩⟩)] 2 :=
  ⟨(uncache_removes_exactly_msgID _ 1).2.1,
   (uncache_removes_exactly_msgID _ 1).2.2 2 (by decide)⟩

/-- C10: `addSecurityModuleIfNeeded` is idempotent per security model: a
call for an already-registered model changes nothing (even with
`default=True`); a first registration prepends the module and makes it the
default exactly when `default` is set or no default existed. -/
theorem addSecurityModule_idempotent_first_default {M : Type}
    (MODEL : M → Int) (st : SecState M) (module : M) (default : Bool) :
    ((List.lookup (MODEL module) st.securityModules).isSome →
      addSecurityModuleIfNeeded MODEL st module default = st)
  ∧ (List.lookup (MODEL module) st.securityModules = none →
      (addSecurityModuleIfNeeded MODEL st module default).securityModules
          = (MODEL module, module) :: st.securityModules
      ∧ (addSecurityModuleIfNeeded MODEL st module default).defaultSecurityModel
          = (if default = true ∨ st.defaultSecurityModel = none
             then some (MODEL module) else st.defaultSecurityModel)) := by
  constructor
  · intro h
    rw [addSecurityModuleIfNeeded, if_pos h]
  · intro h
    rw [addSecurityModuleIfNeeded, if_neg (by simp [h])]
    refine ⟨rfl, ?_⟩
    cases default <;> cases hde : st.defaultSecurityModel <;> simp [hde]

/-- Witness for C10 with the USM model (3) registered twice: the second call
changes nothing, and the first call made it the default. -/
theorem addSecurityModule_idempotent_first_default_witness :
    (addSecurityModuleIfNeeded (fun m => m)
        (addSecurityModuleIfNeeded (fun m => m) ⟨[], none⟩ (3 : Int) false)
        (3 : Int) true
      = addSecurityModuleIfNeeded (fun m => m) ⟨[], none⟩ (3 : Int) false)
  ∧ (addSecurityModuleIfNeeded (fun m => m) ⟨[], none⟩ (3 : Int) false).securityModules
      = [((3 : Int), (3 : Int))]
  ∧ (addSecurityModuleIfNeeded (fun m => m) ⟨[], none⟩ (3 : Int) false).defaultSecurityModel
      = some 3 := by
  have h1 := addSecurityModule_idempotent_first_default
    (fun m => m) (⟨[], none⟩ : SecState Int) (3 : Int) false
  have h2 := h1.2 (by rfl)
  refine ⟨?_, ?_, ?_⟩
  · have h3 := addSecurityModule_idempotent_first_default
      (fun m => m)
      (addSecurityModuleIfNeeded (fun m => m) ⟨[], none⟩ (3 : Int) false)
      (3 : Int) true
    exact h3.1 (by rw [h2.1]; rfl)
  · exact h2.1
  · rw [h2.2]; rfl

/-! ## Claim C4 -/

theorem cacheLookup_insert_self (t : CacheTable) (k : Int) (e : CacheEntry) :
    cacheLookup (cacheInsert t k e) k = some e := by
  rw [cacheInsert, cacheLookup_cons, if_pos rfl]

theorem cacheLookup_insert_frame (t : CacheTable) (k : Int) (e : CacheEntry)
    (k2 : Int) (hk : k2 ≠ k) :
    cacheLookup (cacheInsert t k e) k2 = cacheLookup t k2 := by
  rw [cacheInsert, cacheLookup_cons, if_neg hk]

theorem cacheAttempts_ok_characterization (draws : Nat → Int)
    (table : CacheTable) (entry : CacheEntry) :
    ∀ (fuel i : Nat) (msgID : Int) (t2 : CacheTable),
      cacheAttempts draws table entry i fuel = (.ok msgID, t2) →
      (∃ j, i ≤ j ∧ j < i + fuel ∧ msgID = draws j)
      ∧ msgID ≠ 0 ∧ cacheLookup table msgID = none
      ∧ t2 = cacheInsert table msgID entry := by
  intro fuel
  induction fuel with
  | zero =>
    intro i msgID t2 h
    simp [cacheAttempts] at h
  | succ n ih =>
    intro i msgID t2 h
    rw [cacheAttempts] at h
    by_cases h0 : draws i = 0
    · rw [if_pos h0] at h
      obtain ⟨⟨j, hj1, hj2, hj3⟩, rest⟩ := ih (i + 1) msgID t2 h
      exact ⟨⟨j, by omega, by omega, hj3⟩, rest⟩
    · rw [if_neg h0] at h
      by_cases hl : cacheLookup table (draws i) = none
      · rw [if_pos hl] at h
        simp only [Prod.mk.injEq, Except.ok.injEq] at h
        obtain ⟨h1, h2⟩ := h
        subst h1
        exact ⟨⟨i, le_refl i, by omega, rfl⟩, h0, hl, h2.symm⟩
      · rw [if_neg hl] at h
        obtain ⟨⟨j, hj1, hj2, hj3⟩, rest⟩ := ih (i + 1) msgID t2 h
        exact ⟨⟨j, by omega, by omega, hj3⟩, rest⟩

theorem cacheAttempts_error_characterization (draws : Nat → Int)
    (table : CacheTable) (entry : CacheEntry) :
    ∀ (fuel i : Nat) (e : SnmpErr) (t2 : CacheTable),
      cacheAttempts draws table entry i fuel = (.error e, t2) →
      e = .allocationFailure ∧ t2 = table
      ∧ ∀ j, i ≤ j → j < i + fuel →
          (draws j = 0 ∨ cacheLookup table (draws j) ≠ none) := by
  intro fuel
  induction fuel with
  | zero =>
    intro i e t2 h
    rw [cacheAttempts] at h
    have h1 := congrArg Prod.fst h
    have h2 := congrArg Prod.snd h
    simp at h1 h2
    exact ⟨h1.symm, h2.symm, fun j hj1 hj2 => by omega⟩
  | succ n ih =>
    intro i e t2 h
    rw [cacheAttempts] at h
    by_cases h0 : draws i = 0
    · rw [if_pos h0] at h
      obtain ⟨he, ht, hall⟩ := ih (i + 1) e t2 h
      refine ⟨he, ht, fun j hj1 hj2 => ?_⟩
      by_cases hji : j = i
      · exact Or.inl (hji ▸ h0)
      · exact hall j (by omega) (by omega)
    · rw [if_neg h0] at h
      by_cases hl : cacheLookup table (draws i) = none
      · rw [if_pos hl] at h
        have := congrArg Prod.fst h
        simp at this
      · rw [if_neg hl] at h
        obtain ⟨he, ht, hall⟩ := ih (i + 1) e t2 h
        refine ⟨he, ht, fun j hj1 hj2 => ?_⟩
        by_cases hji : j = i
        · exact Or.inr (hji ▸ hl)
        · exact hall j (by omega) (by omega)

theorem cacheAttempts_error_of_allFail (draws : Nat → Int)
    (table : CacheTable) (entry : CacheEntry) :
    ∀ (fuel i : Nat),
      (∀ j, i ≤ j → j < i + fuel →
        (draws j = 0 ∨ cacheLookup table (draws j) ≠ none)) →
      cacheAttempts draws table entry i fuel
        = (.error .allocationFailure, table) := by
  intro fuel
  induction fuel with
  | zero => intro i _; rw [cacheAttempts]
  | succ n ih =>
    intro i hall
    rw [cacheAttempts]
    by_cases h0 : draws i = 0
    · rw [if_pos h0]
      exact ih (i + 1) (fun j hj1 hj2 => hall j (by omega) (by omega))
    · have hl : cacheLookup table (draws i) ≠ none :=
        (hall i (le_refl i) (by omega)).resolve_left h0
      rw [if_neg h0, if_neg hl]
      exact ih (i + 1) (fun j hj1 hj2 => hall j (by omega) (by omega))

/-- C4: `cache` returns a message ID drawn from the 31-bit generator that is
nonzero and fresh, and the only change to the outstanding table is the new
binding; a draw of 0 counts as a failed attempt; if all 10 attempts fail,
the call fails with the allocation error and the table is unchanged. -/
theorem cache_allocates_fresh_nonzero_id (draws : Nat → Int)
    (table : CacheTable) (entry : CacheEntry)
    (hdraws : ∀ i, 0 ≤ draws i ∧ draws i < 2 ^ 31) :
    (∀ (msgID : Int) (t2 : CacheTable),
        cache draws table entry = (.ok msgID, t2) →
        msgID ≠ 0 ∧ 0 ≤ msgID ∧ msgID < 2 ^ 31
      ∧ (∃ j, j < 10 ∧ msgID = draws j)
      ∧ cacheLookup table msgID = none
      ∧ cacheLookup t2 msgID = some entry
      ∧ ∀ k : Int, k ≠ msgID → cacheLookup t2 k = cacheLookup table k)
  ∧ (∀ (e : SnmpErr) (t2 : CacheTable),
        cache draws table entry = (.error e, t2) →
        e = .allocationFailure ∧ t2 = table
      ∧ ∀ j, j < 10 → (draws j = 0 ∨ cacheLookup table (draws j) ≠ none))
  ∧ ((∀ j, j < 10 → (draws j = 0 ∨ cacheLookup table (draws j) ≠ none)) →
      cache draws table entry = (.error .allocationFailure, table)) := by
  refine ⟨?_, ?_, ?_⟩
  · intro msgID t2 h
    obtain ⟨⟨j, hj1, hj2, hj3⟩, hne, hfresh, ht2⟩ :=
      cacheAttempts_ok_characterization draws table entry 10 0 msgID t2 h
    refine ⟨hne, hj3 ▸ (hdraws j).1, hj3 ▸ (hdraws j).2,
      ⟨j, by omega, hj3⟩, hfresh, ?_, ?_⟩
    · rw [ht2]; exact cacheLookup_insert_self table msgID entry
    · intro k hk
      rw [ht2]; exact cacheLookup_insert_frame table msgID entry k hk
  · intro e t2 h
    obtain ⟨he, ht, hall⟩ :=
      cacheAttempts_error_characterization draws table entry 10 0 e t2 h
    exact ⟨he, ht, fun j hj => hall j (by omega) (by omega)⟩
  · intro hall
    exact cacheAttempts_error_of_allFail draws table entry 10 0
      (fun j hj1 hj2 => hall j (by omega))

/-- Witness for C4: with a generator that always draws 5 and an empty table,
the first attempt succeeds and installs the entry under ID 5. -/
theorem cache_allocates_fresh_nonzero_id_witness :
    cacheLookup ((cache (fun _ => 5) [] ⟨[], [], none, [], 3, ⟨false, false⟩⟩).2)
      5 = some ⟨[], [], none, [], 3, ⟨false, false⟩⟩ := by
  have h := cache_allocates_fresh_nonzero_id (fun _ => (5 : Int)) []
    ⟨[], [], none, [], 3, ⟨false, false⟩⟩
    (fun i => show (0 : Int) ≤ 5 ∧ (5 : Int) < 2 ^ 31 by constructor <;> decide)
  exact (h.1 5 [(5, ⟨[], [], none, [], 3, ⟨false, false⟩⟩)] (by decide)).2.2.2.2.2.1

/-! ## Claim C5 -/

/-- The four-field parse prefix of `HeaderData.deserialize`
(lines 176-179 of src/snmp/message/v3.py), before the range checks. -/
def headerFields (data : Bytes) :
    Except SnmpErr (Int × Int × MessageFlags × Int) := do
  let (msgID, data) ← integerDecodeL data
  let (msgMaxSize, data) ← integerDecodeL data
  let (msgFlags, data) ← messageFlagsDecodeL data
  let msgSecurityModel ← integerDecode data
  .ok (msgID, msgMaxSize, msgFlags, msgSecurityModel)

/-- C5: for every input whose four header fields decode, `deserialize`
raises `ParseError` whenever msgID < 0 or maxSize < 484 or
securityModel < 1 (checked in that order), raises `UnknownSecurityModel`
when securityModel ≥ 1 is not the USM value 3, and otherwise returns the
`HeaderData` carrying exactly the four decoded fields. -/
theorem headerData_deserialize_checks (data : Bytes) (m sz : Int)
    (fl : MessageFlags) (sm : Int)
    (h : headerFields data = .ok (m, sz, fl, sm)) :
    ((m < 0 ∨ sz < 484 ∨ sm < 1) →
      ∃ s, headerDataDeserialize data = .error (.parseError s))
  ∧ (m < 0 →
      headerDataDeserialize data
        = .error (.parseError "msgID may not be less than 0"))
  ∧ (0 ≤ m → sz < 484 →
      headerDataDeserialize data
        = .error (.parseError "msgMaxSize may not be less than 484"))
  ∧ (0 ≤ m → 484 ≤ sz → sm < 1 →
      headerDataDeserialize data
        = .error (.parseError "msgSecurityModel may not be less than 1"))
  ∧ (0 ≤ m → 484 ≤ sz → 1 ≤ sm → sm ≠ 3 →
      headerDataDeserialize data = .error (.unknownSecurityModel sm))
  ∧ (0 ≤ m → 484 ≤ sz → 1 ≤ sm → sm = 3 →
      headerDataDeserialize data = .ok ⟨m, sz, fl, sm⟩) := by
  rw [headerFields] at h
  cases h1 : integerDecodeL data with
  | error e => rw [h1] at h; simp [bind, Except.bind] at h
  | ok p =>
    obtain ⟨m1, r1⟩ := p
    rw [h1] at h
    simp only [bind, Except.bind] at h
    cases h2 : integerDecodeL r1 with
    | error e => rw [h2] at h; simp [bind, Except.bind] at h
    | ok p =>
      obtain ⟨sz1, r2⟩ := p
      rw [h2] at h
      simp only [bind, Except.bind] at h
      cases h3 : messageFlagsDecodeL r2 with
      | error e => rw [h3] at h; simp [bind, Except.bind] at h
      | ok p =>
        obtain ⟨fl1, r3⟩ := p
        rw [h3] at h
        simp only [bind, Except.bind] at h
        cases h4 : integerDecode r3 with
        | error e => rw [h4] at h; simp [bind, Except.bind] at h
        | ok sm1 =>
          rw [h4] at h
          simp only [bind, Except.bind, Except.ok.injEq, Prod.mk.injEq] at h
          obtain ⟨hm, hsz, hfl, hsm⟩ := h
          subst hm; subst hsz; subst hfl; subst hsm
          rw [headerDataDeserialize]
          simp only [h1, h2, h3, h4, bind, Except.bind]
          refine ⟨?_, ?_, ?_, ?_, ?_, ?_⟩
          · rintro (hc | hc | hc)
            · rw [if_pos hc]; exact ⟨_, rfl⟩
            · by_cases hm0 : m1 < 0
              · rw [if_pos hm0]; exact ⟨_, rfl⟩
              · rw [if_neg hm0, if_pos hc]; exact ⟨_, rfl⟩
            · by_cases hm0 : m1 < 0
              · rw [if_pos hm0]; exact ⟨_, rfl⟩
              · rw [if_neg hm0]
                by_cases hs0 : sz1 < 484
                · rw [if_pos hs0]; exact ⟨_, rfl⟩
                · rw [if_neg hs0, if_pos hc]; exact ⟨_, rfl⟩
          · intro hc; rw [if_pos hc]
          · intro hm0 hc
            rw [if_neg (by omega), if_pos hc]
          · intro hm0 hs0 hc
            rw [if_neg (by omega), if_neg (by omega), if_pos hc]
          · intro hm0 hs0 hsm1 hc
            rw [if_neg (by omega), if_neg (by omega), if_neg (by omega),
              if_pos hc]
          · intro hm0 hs0 hsm1 hc
            rw [if_neg (by omega), if_neg (by omega), if_neg (by omega),
              if_neg (by omega)]

/-- Witness for C5 on a concrete wire header
(msgID 1, maxSize 1472, flags 0, securityModel 3). -/
theorem headerData_deserialize_checks_witness :
    headerDataDeserialize
        [0x02, 0x01, 0x01, 0x02, 0x02, 0x05, 0xC0, 0x04, 0x01, 0x00,
         0x02, 0x01, 0x03]
      = .ok ⟨1, 1472, ⟨⟨false, false⟩, false⟩, 3⟩ :=
  (headerData_deserialize_checks
      [0x02, 0x01, 0x01, 0x02, 0x02, 0x05, 0xC0, 0x04, 0x01, 0x00,
       0x02, 0x01, 0x03]
      1 1472 ⟨⟨false, false⟩, false⟩ 3 (by decide)).2.2.2.2.2
    (by decide) (by decide) (by decide) rfl

/-! ## Claim C6 -/

/-- C6: `SNMPv3Message.deserialize` raises `BadVersion` whenever the leading
INTEGER is not 3; for version 3 a successful decode carries an encrypted
OCTET STRING payload exactly when the header's priv flag is set and a
cleartext `ScopedPDU` exactly otherwise; and `ScopedPDU` decoding raises
`ParseError` whenever the peeked PDU identifier is not in the dispatch
table. -/
theorem snmpv3Message_deserialize_payload_selection :
    (∀ (data : Bytes) (v : Int) (rest : Bytes),
      integerDecodeL data = .ok (v, rest) → v ≠ 3 →
      snmpV3MessageDeserialize data = .error .badVersion)
  ∧ (∀ (data : Bytes) (m : SNMPv3Message),
      snmpV3MessageDeserialize data = .ok m →
      (m.encryptedPDU.isSome ↔ m.header.flags.privFlag = true)
      ∧ (m.scopedPDU.isSome ↔ m.header.flags.privFlag = false))
  ∧ (∀ (data eng nm r1 r2 : Bytes) (i : Nat),
      octetStringDecodeL data = .ok (eng, r1) →
      octetStringDecodeL r1 = .ok (nm, r2) →
      decodeIdentifier r2 = .ok i →
      pduTypeTags.contains i = false →
      scopedPDUDeserialize data = .error (.parseError "Invalid PDU type")) := by
  refine ⟨?_, ?_, ?_⟩
  · intro data v rest h hv
    rw [snmpV3MessageDeserialize]
    simp only [h, bind, Except.bind]
    rw [if_pos hv]
  · intro data m h
    rw [snmpV3MessageDeserialize] at h
    cases h1 : integerDecodeL data with
    | error e => rw [h1] at h; simp [bind, Except.bind] at h
    | ok p =>
      obtain ⟨v, r1⟩ := p
      rw [h1] at h
      simp only [bind, Except.bind] at h
      by_cases hv : v ≠ 3
      · rw [if_pos hv] at h; simp at h
      · rw [if_neg hv] at h
        cases h2 : headerDataDecodeL r1 with
        | error e => rw [h2] at h; simp [bind, Except.bind] at h
        | ok p =>
          obtain ⟨hdr, r2⟩ := p
          rw [h2] at h
          simp only [bind, Except.bind] at h
          cases h3 : octetStringDecodeL r2 with
          | error e => rw [h3] at h; simp [bind, Except.bind] at h
          | ok p =>
            obtain ⟨sec, r3⟩ := p
            rw [h3] at h
            simp only [bind, Except.bind] at h
            by_cases hp : hdr.flags.privFlag
            · rw [if_pos hp] at h
              cases h4 : octetStringDecode r3 with
              | error e => rw [h4] at h; simp [bind, Except.bind] at h
              | ok enc =>
                rw [h4] at h
                simp only [bind, Except.bind, Except.ok.injEq] at h
                subst h
                simp [hp]
            · rw [if_neg hp] at h
              cases h4 : scopedPDUDecode r3 with
              | error e => rw [h4] at h; simp [bind, Except.bind] at h
              | ok spdu =>
                rw [h4] at h
                simp only [bind, Except.bind, Except.ok.injEq] at h
                subst h
                simp [hp]
  · intro data eng nm r1 r2 i h1 h2 h3 hni
    rw [scopedPDUDeserialize]
    simp only [h1, h2, h3, bind, Except.bind]
    simp [hni]
    intro hm
    have hc : pduTypeTags.contains i = true := List.elem_eq_true_of_mem hm
    rw [hni] at hc
    exact absurd hc Bool.false_ne_true

/-- Witness for C6: a version-2 message is `BadVersion`; a well-formed
cleartext version-3 Response message decodes with a `ScopedPDU` payload and
no encrypted payload; a scoped PDU whose identifier 0x05 is unknown is a
`ParseError`. -/
theorem snmpv3Message_deserialize_payload_selection_witness :
    snmpV3MessageDeserialize [0x02, 0x01, 0x02] = .error .badVersion
  ∧ ((⟨⟨1, 1472, ⟨⟨false, false⟩, false⟩, 3⟩, some ⟨⟨0xA2, []⟩, [], []⟩,
        none, []⟩ : SNMPv3Message).encryptedPDU.isSome
      ↔ (⟨⟨1, 1472, ⟨⟨false, false⟩, false⟩, 3⟩, some ⟨⟨0xA2, []⟩, [], []⟩,
        none, []⟩ : SNMPv3Message).header.flags.privFlag = true)
  ∧ scopedPDUDeserialize [0x04, 0x00, 0x04, 0x00, 0x05, 0x00]
      = .error (.parseError "Invalid PDU type") :=
  ⟨snmpv3Message_deserialize_payload_selection.1 [0x02, 0x01, 0x02] 2 []
      (by decide) (by decide),
   (snmpv3Message_deserialize_payload_selection.2.1
      [0x02,0x01,0x03, 0x30,0x0D,0x02,0x01,0x01,0x02,0x02,0x05,0xC0,
       0x04,0x01,0x00,0x02,0x01,0x03, 0x04,0x00,
       0x30,0x06,0x04,0x00,0x04,0x00,0xA2,0x00]
      ⟨⟨1, 1472, ⟨⟨false, false⟩, false⟩, 3⟩, some ⟨⟨0xA2, []⟩, [], []⟩,
        none, []⟩ (by decide)).1,
   snmpv3Message_deserialize_payload_selection.2.2
      [0x04, 0x00, 0x04, 0x00, 0x05, 0x00] [] [] [0x04, 0x00, 0x05, 0x00]
      [0x05, 0x00] 0x05 (by decide) (by decide) (by decide) (by decide)⟩

/-! ## Claim C1 -/

theorem prepareDataElements_reduces (modules : Int → Option SecMod)
    (outstanding : CacheTable) (msg body r1 r2 data rest : Bytes)
    (hdr : HeaderData) (M : SecMod) (lvl : SecurityLevel)
    (security : SecurityParameters) (spdu : ScopedPDU)
    (hbody : decodeTLV 0x30 msg = .ok (body, []))
    (hver : integerDecodeL body = .ok (3, r1))
    (hhdr : headerDataDecodeL r1 = .ok (hdr, r2))
    (hmod : modules hdr.securityModel = some M)
    (hlvl : mkSecurityLevel hdr.flags.authFlag hdr.flags.privFlag = .ok lvl)
    (hsec : M r2 lvl = .ok (security, data))
    (hspdu : scopedPDUDecodeL data = .ok (spdu, rest)) :
    prepareDataElements modules outstanding msg
      = matchResponse outstanding hdr.id lvl security spdu := by
  rw [prepareDataElements]
  simp only [hbody, bind, Except.bind]
  rw [if_neg (by simp)]
  simp only [hver, bind, Except.bind]
  rw [if_neg (by simp)]
  simp only [hhdr, bind, Except.bind, hmod, hlvl, hsec, hspdu]


/-- C1 (amended): for a version-3 message whose decoded scoped PDU is
Response-class, `prepareDataElements` returns the (message, handle) pair
only when the header msgID is cached, the cached weak handle is live, and
every cross-check passes; the checks run in source order, failing with
`ResponseMismatch` at the first mismatch: the *requested* level must not be
below the response's SecurityLevel — a response whose level exceeds the
cached requested level is rejected, one at or below it passes (skipped for
Report) — then securityEngineID (skipped for Report), securityName,
contextEngineID (skipped for Report), contextName.  An absent msgID raises
`ResponseMismatch`; a released handle raises `LateResponse`; a non-response
PDU raises `UnsupportedFeature`. -/
theorem prepareDataElements_response_crosschecks
    (modules : Int → Option SecMod) (outstanding : CacheTable)
    (msg body r1 r2 data rest : Bytes) (hdr : HeaderData) (M : SecMod)
    (lvl : SecurityLevel) (security : SecurityParameters) (spdu : ScopedPDU)
    (hbody : decodeTLV 0x30 msg = .ok (body, []))
    (hver : integerDecodeL body = .ok (3, r1))
    (hhdr : headerDataDecodeL r1 = .ok (hdr, r2))
    (hmod : modules hdr.securityModel = some M)
    (hlvl : mkSecurityLevel hdr.flags.authFlag hdr.flags.privFlag = .ok lvl)
    (hsec : M r2 lvl = .ok (security, data))
    (hspdu : scopedPDUDecodeL data = .ok (spdu, rest)) :
    (spdu.pdu.isResponseClass = false →
      prepareDataElements modules outstanding msg = .error .unsupportedFeature)
  ∧ (spdu.pdu.isResponseClass = true →
      (cacheLookup outstanding hdr.id = none →
        prepareDataElements modules outstanding msg
          = .error (.responseMismatch "Unknown msgID"))
    ∧ (∀ entry, cacheLookup outstanding hdr.id = some entry →
        (entry.handle = none →
          prepareDataElements modules outstanding msg = .error .lateResponse)
      ∧ (∀ h, entry.handle = some h →
          ((!spdu.pdu.isInternalClass && entry.securityLevel.lt lvl) = true →
            prepareDataElements modules outstanding msg
              = .error (.responseMismatch "Security Level"))
        ∧ ((!spdu.pdu.isInternalClass && entry.securityLevel.lt lvl) = false →
            (!spdu.pdu.isInternalClass
              && decide (entry.engineID ≠ security.securityEngineID)) = true →
            prepareDataElements modules outstanding msg
              = .error (.responseMismatch "Security Engine ID"))
        ∧ ((!spdu.pdu.isInternalClass && entry.securityLevel.lt lvl) = false →
            (!spdu.pdu.isInternalClass
              && decide (entry.engineID ≠ security.securityEngineID)) = false →
            entry.securityName ≠ security.securityName →
            prepareDataElements modules outstanding msg
              = .error (.responseMismatch "Security Name"))
        ∧ ((!spdu.pdu.isInternalClass && entry.securityLevel.lt lvl) = false →
            (!spdu.pdu.isInternalClass
              && decide (entry.engineID ≠ security.securityEngineID)) = false →
            entry.securityName = security.securityName →
            (!spdu.pdu.isInternalClass
              && decide (entry.engineID ≠ spdu.contextEngineID)) = true →
            prepareDataElements modules outstanding msg
              = .error (.responseMismatch "Context Engine ID"))
        ∧ ((!spdu.pdu.isInternalClass && entry.securityLevel.lt lvl) = false →
            (!spdu.pdu.isInternalClass
              && decide (entry.engineID ≠ security.securityEngineID)) = false →
            entry.securityName = security.securityName →
            (!spdu.pdu.isInternalClass
              && decide (entry.engineID ≠ spdu.contextEngineID)) = false →
            entry.context ≠ spdu.contextName →
            prepareDataElements modules outstanding msg
              = .error (.responseMismatch "Context Name"))
        ∧ ((!spdu.pdu.isInternalClass && entry.securityLevel.lt lvl) = false →
            (!spdu.pdu.isInternalClass
              && decide (entry.engineID ≠ security.securityEngineID)) = false →
            entry.securityName = security.securityName →
            (!spdu.pdu.isInternalClass
              && decide (entry.engineID ≠ spdu.contextEngineID)) = false →
            entry.context = spdu.contextName →
            prepareDataElements modules outstanding msg
              = .ok (⟨hdr.id, lvl, security.securityEngineID,
                      security.securityName, spdu⟩, h)))))
  ∧ (∀ (m : OldSNMPv3Message) (hh : Nat),
      prepareDataElements modules outstanding msg = .ok (m, hh) →
      spdu.pdu.isResponseClass = true
      ∧ ∃ entry, cacheLookup outstanding hdr.id = some entry
        ∧ entry.handle = some hh
        ∧ (!spdu.pdu.isInternalClass && entry.securityLevel.lt lvl) = false
        ∧ (!spdu.pdu.isInternalClass
            && decide (entry.engineID ≠ security.securityEngineID)) = false
        ∧ entry.securityName = security.securityName
        ∧ (!spdu.pdu.isInternalClass
            && decide (entry.engineID ≠ spdu.contextEngineID)) = false
        ∧ entry.context = spdu.contextName
        ∧ m = ⟨hdr.id, lvl, security.securityEngineID,
                security.securityName, spdu⟩) := by
  have hred := prepareDataElements_reduces modules outstanding msg body r1 r2
    data rest hdr M lvl security spdu hbody hver hhdr hmod hlvl hsec hspdu
  rw [hred]
  refine ⟨?_, ?_, ?_⟩
  · intro hnr
    rw [matchResponse.eq_def, if_neg (by simp [hnr])]
  · intro hr
    refine ⟨?_, ?_⟩
    · intro hlook
      rw [matchResponse.eq_def, if_pos hr, hlook]
    · intro entry hlook
      refine ⟨?_, ?_⟩
      · intro hhd
        rw [matchResponse.eq_def, if_pos hr, hlook]
        simp only []
        rw [hhd]
      · intro h hhd
        refine ⟨?_, ?_, ?_, ?_, ?_, ?_⟩
        · intro hc1
          rw [matchResponse.eq_def, if_pos hr, hlook]
          simp only []
          rw [hhd]
          simp only []
          rw [if_pos hc1]
        · intro hc1 hc2
          rw [matchResponse.eq_def, if_pos hr, hlook]
          simp only []
          rw [hhd]
          simp only []
          rw [if_neg (by rw [hc1]; simp), if_pos hc2]
        · intro hc1 hc2 hc3
          rw [matchResponse.eq_def, if_pos hr, hlook]
          simp only []
          rw [hhd]
          simp only []
          rw [if_neg (by rw [hc1]; simp), if_neg (by rw [hc2]; simp), if_pos hc3]
        · intro hc1 hc2 hc3 hc4
          rw [matchResponse.eq_def, if_pos hr, hlook]
          simp only []
          rw [hhd]
          simp only []
          rw [if_neg (by rw [hc1]; simp), if_neg (by rw [hc2]; simp),
            if_neg (by simp [hc3]), if_pos hc4]
        · intro hc1 hc2 hc3 hc4 hc5
          rw [matchResponse.eq_def, if_pos hr, hlook]
          simp only []
          rw [hhd]
          simp only []
          rw [if_neg (by rw [hc1]; simp), if_neg (by rw [hc2]; simp),
            if_neg (by simp [hc3]), if_neg (by rw [hc4]; simp), if_pos hc5]
        · intro hc1 hc2 hc3 hc4 hc5
          rw [matchResponse.eq_def, if_pos hr, hlook]
          simp only []
          rw [hhd]
          simp only []
          rw [if_neg (by rw [hc1]; simp), if_neg (by rw [hc2]; simp),
            if_neg (by simp [hc3]), if_neg (by rw [hc4]; simp),
            if_neg (by simp [hc5])]
  · intro m hh hok
    rw [matchResponse.eq_def] at hok
    by_cases hr : spdu.pdu.isResponseClass = true
    · refine ⟨hr, ?_⟩
      rw [if_pos hr] at hok
      cases hlook : cacheLookup outstanding hdr.id with
      | none => rw [hlook] at hok; simp at hok
      | some entry =>
        rw [hlook] at hok
        simp only [] at hok
        cases hhd : entry.handle with
        | none => rw [hhd] at hok; simp at hok
        | some h2 =>
          rw [hhd] at hok
          simp only [] at hok
          by_cases hc1 : (!spdu.pdu.isInternalClass
              && entry.securityLevel.lt lvl) = true
          · rw [if_pos hc1] at hok; simp at hok
          · rw [if_neg hc1] at hok
            by_cases hc2 : (!spdu.pdu.isInternalClass
                && decide (entry.engineID ≠ security.securityEngineID)) = true
            · rw [if_pos hc2] at hok; simp at hok
            · rw [if_neg hc2] at hok
              by_cases hc3 : entry.securityName ≠ security.securityName
              · rw [if_pos hc3] at hok; simp at hok
              · rw [if_neg hc3] at hok
                by_cases hc4 : (!spdu.pdu.isInternalClass
                    && decide (entry.engineID ≠ spdu.contextEngineID)) = true
                · rw [if_pos hc4] at hok; simp at hok
                · rw [if_neg hc4] at hok
                  by_cases hc5 : entry.context ≠ spdu.contextName
                  · rw [if_pos hc5] at hok; simp at hok
                  · rw [if_neg hc5] at hok
                    simp only [Except.ok.injEq, Prod.mk.injEq] at hok
                    obtain ⟨hm, hhh⟩ := hok
                    refine ⟨entry, rfl, ?_, ?_, ?_, ?_, ?_, ?_, ?_⟩
                    · rw [hhd, hhh]
                    · exact Bool.eq_false_iff.mpr hc1
                    · exact Bool.eq_false_iff.mpr hc2
                    · exact not_not.mp hc3
                    · exact Bool.eq_false_iff.mpr hc4
                    · exact not_not.mp hc5
                    · exact hm.symm
    · rw [if_neg hr] at hok
      simp at hok

/-- Counterexample to C1 as stated: with everything else matching, a
Response carrying security level noAuthNoPriv while the cached requested
level is authPriv — i.e. a response strictly *below* the requested level —
is accepted and the (message, handle) pair returned, not rejected with
`ResponseMismatch`: the source compares `entry.securityLevel <
securityLevel`, which rejects responses *above* the requested level. -/
theorem prepareDataElements_level_below_requested_accepted :
    SecurityLevel.lt noAuthNoPriv authPriv = true
  ∧ prepareDataElements
      (fun m => if m == 3 then some (fun _ _ =>
        Except.ok (⟨[], []⟩, [0x30, 0x06, 0x04, 0x00, 0x04, 0x00, 0xA2, 0x00]))
       else none)
      [(1, ⟨[], [], some 7, [], 3, authPriv⟩)]
      [0x30, 0x12, 0x02, 0x01, 0x03, 0x30, 0x0D, 0x02, 0x01, 0x01,
       0x02, 0x02, 0x05, 0xC0, 0x04, 0x01, 0x00, 0x02, 0x01, 0x03]
    = .ok (⟨1, noAuthNoPriv, [], [], ⟨⟨0xA2, []⟩, [], []⟩⟩, 7) :=
  ⟨rfl, rfl⟩

/-- Witness for the amended C1: a fully matching Response (equal levels,
engine IDs, names and contexts, live handle under msgID 1) is returned. -/
theorem prepareDataElements_response_crosschecks_witness :
    prepareDataElements
      (fun m => if m == 3 then some (fun _ _ =>
        Except.ok (⟨[], []⟩, [0x30, 0x06, 0x04, 0x00, 0x04, 0x00, 0xA2, 0x00]))
       else none)
      [(1, ⟨[], [], some 7, [], 3, ⟨false, false⟩⟩)]
      [0x30, 0x12, 0x02, 0x01, 0x03, 0x30, 0x0D, 0x02, 0x01, 0x01,
       0x02, 0x02, 0x05, 0xC0, 0x04, 0x01, 0x00, 0x02, 0x01, 0x03]
    = .ok (⟨1, ⟨false, false⟩, [], [], ⟨⟨0xA2, []⟩, [], []⟩⟩, 7) := by
  have h := prepareDataElements_response_crosschecks
    (fun m => if m == 3 then some (fun _ _ =>
      Except.ok (⟨[], []⟩, [0x30, 0x06, 0x04, 0x00, 0x04, 0x00, 0xA2, 0x00]))
     else none)
    [(1, ⟨[], [], some 7, [], 3, ⟨false, false⟩⟩)]
    [0x30, 0x12, 0x02, 0x01, 0x03, 0x30, 0x0D, 0x02, 0x01, 0x01,
     0x02, 0x02, 0x05, 0xC0, 0x04, 0x01, 0x00, 0x02, 0x01, 0x03]
    [0x02, 0x01, 0x03, 0x30, 0x0D, 0x02, 0x01, 0x01,
     0x02, 0x02, 0x05, 0xC0, 0x04, 0x01, 0x00, 0x02, 0x01, 0x03]
    [0x30, 0x0D, 0x02, 0x01, 0x01, 0x02, 0x02, 0x05, 0xC0,
     0x04, 0x01, 0x00, 0x02, 0x01, 0x03]
    [] [0x30, 0x06, 0x04, 0x00, 0x04, 0x00, 0xA2, 0x00] []
    ⟨1, 1472, ⟨⟨false, false⟩, false⟩, 3⟩
    (fun _ _ =>
      Except.ok (⟨[], []⟩, [0x30, 0x06, 0x04, 0x00, 0x04, 0x00, 0xA2, 0x00]))
    ⟨false, false⟩ ⟨[], []⟩ ⟨⟨0xA2, []⟩, [], []⟩
    (by decide) (by decide) (by decide) rfl (by decide) rfl (by decide)
  exact (((h.2.1 (by decide)).2 ⟨[], [], some 7, [], 3, ⟨false, false⟩⟩
    (by decide)).2 7 (by decide)).2.2.2.2.2 (by decide) (by decide)
    (by decide) (by decide) (by decide)

/-! ## USM privacy protocols
(src/snmp/security/usm/priv/des.py and aes.py)

The DES and AES block ciphers themselves live in PyCryptodome and are kept
abstract: `E`/`D` is the DES block permutation under the instance key and
`cfb` the AES-CFB keystream application under the instance key.  CBC
chaining, padding, salt and IV construction are embedded concretely. -/

/-- Big-endian fixed-width byte representation (the value of
`n.to_bytes(length, "big")` when it does not overflow). -/
def beBytes (length n : Nat) : Bytes :=
  (List.range length).map fun i => n / 256 ^ (length - 1 - i) % 256

/-- `int.to_bytes(length, "big")`: raises `OverflowError` when the value
does not fit. -/
def toBytesBE (length n : Nat) : Except SnmpErr Bytes :=
  if n < 256 ^ length then .ok (beBytes length n)
  else .error (.valueError "int too big to convert")

/-- Byte-wise XOR of two byte strings (truncating to the shorter, as
`zip` does in `computeIV`). -/
def listXor (a b : Bytes) : Bytes :=
  List.zipWith (fun x y => x ^^^ y) a b

/-- Split a byte string into consecutive 8-byte blocks (the final block is
shorter when the length is not a multiple of 8). -/
def chunksOf8 : Bytes → List Bytes
  | [] => []
  | b1 :: b2 :: b3 :: b4 :: b5 :: b6 :: b7 :: b8 :: rest =>
    [b1, b2, b3, b4, b5, b6, b7, b8] :: chunksOf8 rest
  | l => [l]

/-- CBC-mode encryption over whole blocks with block cipher `E`. -/
def cbcEncrypt (E : Bytes → Bytes) (iv : Bytes) : List Bytes → List Bytes
  | [] => []
  | b :: bs =>
    let c := E (listXor b iv)
    c :: cbcEncrypt E c bs

/-- CBC-mode decryption over whole blocks with block cipher inverse `D`. -/
def cbcDecrypt (D : Bytes → Bytes) (iv : Bytes) : List Bytes → List Bytes
  | [] => []
  | c :: cs => listXor (D c) iv :: cbcDecrypt D c cs

/-- `DesCbc`: DES key (8 bytes), pre-IV (8 bytes) and the mutable salt
counter. -/
structure DesCbc where
  key : Bytes
  preIV : Bytes
  salt : Nat
  deriving DecidableEq, Repr

def DesCbc.BLOCKLEN : Nat := 8
def DesCbc.KEYLEN : Nat := DesCbc.BLOCKLEN * 2
def DesCbc.SALTLEN : Nat := DesCbc.BLOCKLEN / 2
def DesCbc.SALTWRAP : Nat := 2 ^ (8 * DesCbc.SALTLEN)

/-- `DesCbc.__init__`: requires at least 16 key bytes; key = first 8,
pre-IV = next 8; the salt counter is seeded with 4 random bytes
(`saltSeed` stands for the `os.urandom` draw). -/
def mkDesCbc (key : Bytes) (saltSeed : Nat) : Except SnmpErr DesCbc :=
  if key.length < DesCbc.KEYLEN then
    .error (.valueError "key must be at least 16 bytes long")
  else
    .ok ⟨key.take DesCbc.BLOCKLEN,
         (key.drop DesCbc.BLOCKLEN).take DesCbc.BLOCKLEN, saltSeed⟩

/-- `DesCbc.pad`: append `8 - len(data) % 8` zero bytes (a full zero block
when the length is already a multiple of 8). -/
def DesCbc.pad (data : Bytes) : Bytes :=
  data ++ List.replicate (DesCbc.BLOCKLEN - data.length % DesCbc.BLOCKLEN) 0

/-- `DesCbc.computeIV`: pre-IV XOR salt. -/
def DesCbc.computeIV (self : DesCbc) (salt : Bytes) : Bytes :=
  listXor self.preIV salt

/-- `DesCbc.decrypt`: rejects a ciphertext whose length is not a multiple
of 8, then CBC-decrypts `self.pad(data)` — note the source pads the
*ciphertext*, appending a full zero block, before decrypting. -/
def DesCbc.decrypt (D : Bytes → Bytes) (self : DesCbc) (data : Bytes)
    (engineBoots engineTime : Nat) (salt : Bytes) : Except SnmpErr Bytes :=
  if data.length % DesCbc.BLOCKLEN ≠ 0 then .error .decryptionError
  else .ok (List.flatten
    (cbcDecrypt D (self.computeIV salt) (chunksOf8 (DesCbc.pad data))))

/-- `DesCbc.encrypt`: bump the salt counter modulo 2^32, build the 8-byte
salt as 4-byte big-endian engineBoots followed by the 4-byte counter,
derive the IV and CBC-encrypt the zero-padded plaintext. -/
def DesCbc.encrypt (E : Bytes → Bytes) (self : DesCbc) (data : Bytes)
    (engineBoots engineTime : Nat) :
    Except SnmpErr (DesCbc × Bytes × Bytes) := do
  let salt1 := (self.salt + 1) % DesCbc.SALTWRAP
  let bootsB ← toBytesBE (DesCbc.BLOCKLEN - DesCbc.SALTLEN) engineBoots
  let saltB ← toBytesBE DesCbc.SALTLEN salt1
  let salt := bootsB ++ saltB
  let self2 : DesCbc := { self with salt := salt1 }
  let iv := self2.computeIV salt
  .ok (self2, List.flatten (cbcEncrypt E iv (chunksOf8 (DesCbc.pad data))), salt)

/-- `Aes128Cfb`: AES key (16 bytes) and the mutable salt counter. -/
structure Aes128Cfb where
  key : Bytes
  salt : Nat
  deriving DecidableEq, Repr

def Aes128Cfb.BITS : Nat := 128
def Aes128Cfb.INTSIZE : Nat := 4
def Aes128Cfb.BLOCKLEN : Nat := Aes128Cfb.BITS / 8
def Aes128Cfb.KEYLEN : Nat := Aes128Cfb.BLOCKLEN
def Aes128Cfb.SALTLEN : Nat := Aes128Cfb.BLOCKLEN - 2 * Aes128Cfb.INTSIZE
def Aes128Cfb.SALTWRAP : Nat := 2 ^ (8 * Aes128Cfb.SALTLEN)

/-- `Aes128Cfb.__init__`. -/
def mkAes128Cfb (key : Bytes) (saltSeed : Nat) : Except SnmpErr Aes128Cfb :=
  if key.length < Aes128Cfb.KEYLEN then
    .error (.valueError "key must be at least 16 bytes long")
  else
    .ok ⟨key.take Aes128Cfb.KEYLEN, saltSeed⟩

/-- `Aes128Cfb.packIV`: 4-byte big-endian engineBoots, 4-byte big-endian
engineTime, then the 8-byte salt; rejects a salt of any other length. -/
def Aes128Cfb.packIV (engineBoots engineTime : Nat) (salt : Bytes) :
    Except SnmpErr Bytes :=
  if salt.length ≠ Aes128Cfb.SALTLEN then .error (.valueError "Invalid salt")
  else do
    let bootsB ← toBytesBE Aes128Cfb.INTSIZE engineBoots
    let timeB ← toBytesBE Aes128Cfb.INTSIZE engineTime
    .ok (bootsB ++ timeB ++ salt)

/-- `Aes128Cfb.decrypt`: a bad salt surfaces as `DecryptionError`. -/
def Aes128Cfb.decrypt (cfb : Bytes → Bytes → Bytes) (self : Aes128Cfb)
    (data : Bytes) (engineBoots engineTime : Nat) (salt : Bytes) :
    Except SnmpErr Bytes :=
  match Aes128Cfb.packIV engineBoots engineTime salt with
  | .error _ => .error .decryptionError
  | .ok iv => .ok (cfb iv data)

/-- `Aes128Cfb.encrypt`: bump the salt counter modulo 2^64, emit it as the
8-byte big-endian salt and run AES-CFB under the packed IV. -/
def Aes128Cfb.encrypt (cfb : Bytes → Bytes → Bytes) (self : Aes128Cfb)
    (data : Bytes) (engineBoots engineTime : Nat) :
    Except SnmpErr (Aes128Cfb × Bytes × Bytes) := do
  let salt1 := (self.salt + 1) % Aes128Cfb.SALTWRAP
  let saltB ← toBytesBE Aes128Cfb.SALTLEN salt1
  let iv ← Aes128Cfb.packIV engineBoots engineTime saltB
  .ok ({ self with salt := salt1 }, cfb iv data, saltB)

/-! ## Claim C8 -/

theorem beBytes_length (length n : Nat) : (beBytes length n).length = length := by
  simp [beBytes]

/-- C8: each encrypt bumps the instance salt counter by exactly 1 modulo
2^(8·SALTLEN) — 2^32 for DES, 2^64 for AES — before use; DES emits the
8-byte salt as 4-byte big-endian engineBoots ‖ 4-byte big-endian counter,
and AES builds its 16-byte IV as big-endian engineBoots ‖ engineTime ‖ the
8-byte big-endian salt. -/
theorem priv_salt_increment_and_iv_layout
    (E : Bytes → Bytes) (cfb : Bytes → Bytes → Bytes)
    (des : DesCbc) (aes : Aes128Cfb) (dataD dataA : Bytes)
    (engineBoots engineTime : Nat)
    (hb : engineBoots < 2 ^ 32) (ht : engineTime < 2 ^ 32) :
    DesCbc.SALTWRAP = 2 ^ 32
  ∧ Aes128Cfb.SALTWRAP = 2 ^ 64
  ∧ exceptIsOk (DesCbc.encrypt E des dataD engineBoots engineTime) = true
  ∧ (∀ (des2 : DesCbc) (c salt : Bytes),
      DesCbc.encrypt E des dataD engineBoots engineTime = .ok (des2, c, salt) →
        des2.salt = (des.salt + 1) % 2 ^ 32
      ∧ salt = beBytes 4 engineBoots ++ beBytes 4 ((des.salt + 1) % 2 ^ 32)
      ∧ salt.length = 8)
  ∧ exceptIsOk (Aes128Cfb.encrypt cfb aes dataA engineBoots engineTime) = true
  ∧ (∀ (aes2 : Aes128Cfb) (c salt : Bytes),
      Aes128Cfb.encrypt cfb aes dataA engineBoots engineTime
        = .ok (aes2, c, salt) →
        aes2.salt = (aes.salt + 1) % 2 ^ 64
      ∧ salt = beBytes 8 ((aes.salt + 1) % 2 ^ 64)
      ∧ Aes128Cfb.packIV engineBoots engineTime salt
          = .ok (beBytes 4 engineBoots ++ beBytes 4 engineTime ++ salt)
      ∧ c = cfb (beBytes 4 engineBoots ++ beBytes 4 engineTime ++ salt) dataA
      ∧ (beBytes 4 engineBoots ++ beBytes 4 engineTime ++ salt).length = 16) := by
  have hb4 : engineBoots < 256 ^ 4 := by
    have h256 : (256 : Nat) ^ 4 = 2 ^ 32 := by norm_num
    rw [h256]; exact hb
  have ht4 : engineTime < 256 ^ 4 := by
    have h256 : (256 : Nat) ^ 4 = 2 ^ 32 := by norm_num
    rw [h256]; exact ht
  have hdm : (des.salt + 1) % 2 ^ 32 < 256 ^ 4 := by
    have h256 : (256 : Nat) ^ 4 = 2 ^ 32 := by norm_num
    rw [h256]; exact Nat.mod_lt _ (by norm_num)
  have ham : (aes.salt + 1) % 2 ^ 64 < 256 ^ 8 := by
    have h2568 : (256 : Nat) ^ 8 = 2 ^ 64 := by norm_num
    rw [h2568]; exact Nat.mod_lt _ (by norm_num)
  have hboots : toBytesBE (DesCbc.BLOCKLEN - DesCbc.SALTLEN) engineBoots
      = .ok (beBytes 4 engineBoots) := by
    rw [toBytesBE,
      if_pos (show engineBoots < 256 ^ (DesCbc.BLOCKLEN - DesCbc.SALTLEN)
        from hb4)]
    rfl
  have hsalt : toBytesBE DesCbc.SALTLEN ((des.salt + 1) % DesCbc.SALTWRAP)
      = .ok (beBytes 4 ((des.salt + 1) % 2 ^ 32)) := by
    rw [toBytesBE,
      if_pos (show (des.salt + 1) % DesCbc.SALTWRAP < 256 ^ DesCbc.SALTLEN
        from hdm)]
    rfl
  have hbootsA : toBytesBE Aes128Cfb.INTSIZE engineBoots
      = .ok (beBytes 4 engineBoots) := by
    rw [toBytesBE,
      if_pos (show engineBoots < 256 ^ Aes128Cfb.INTSIZE from hb4)]
    rfl
  have htimeA : toBytesBE Aes128Cfb.INTSIZE engineTime
      = .ok (beBytes 4 engineTime) := by
    rw [toBytesBE,
      if_pos (show engineTime < 256 ^ Aes128Cfb.INTSIZE from ht4)]
    rfl
  have hsaltA : toBytesBE Aes128Cfb.SALTLEN
        ((aes.salt + 1) % Aes128Cfb.SALTWRAP)
      = .ok (beBytes 8 ((aes.salt + 1) % 2 ^ 64)) := by
    rw [toBytesBE,
      if_pos (show (aes.salt + 1) % Aes128Cfb.SALTWRAP
          < 256 ^ Aes128Cfb.SALTLEN from ham)]
    rfl
  have hpack : Aes128Cfb.packIV engineBoots engineTime
        (beBytes 8 ((aes.salt + 1) % 2 ^ 64))
      = .ok (beBytes 4 engineBoots ++ beBytes 4 engineTime
             ++ beBytes 8 ((aes.salt + 1) % 2 ^ 64)) := by
    rw [Aes128Cfb.packIV, if_neg (by simp [beBytes_length]; rfl)]
    simp only [hbootsA, htimeA, bind, Except.bind]
  have hdes : DesCbc.encrypt E des dataD engineBoots engineTime
      = .ok ({ des with salt := (des.salt + 1) % 2 ^ 32 },
             List.flatten (cbcEncrypt E
               (listXor des.preIV (beBytes 4 engineBoots
                  ++ beBytes 4 ((des.salt + 1) % 2 ^ 32)))
               (chunksOf8 (DesCbc.pad dataD))),
             beBytes 4 engineBoots ++ beBytes 4 ((des.salt + 1) % 2 ^ 32)) := by
    rw [DesCbc.encrypt]
    simp only [hboots, hsalt, bind, Except.bind]
    rfl
  have haes : Aes128Cfb.encrypt cfb aes dataA engineBoots engineTime
      = .ok ({ aes with salt := (aes.salt + 1) % 2 ^ 64 },
             cfb (beBytes 4 engineBoots ++ beBytes 4 engineTime
                  ++ beBytes 8 ((aes.salt + 1) % 2 ^ 64)) dataA,
             beBytes 8 ((aes.salt + 1) % 2 ^ 64)) := by
    rw [Aes128Cfb.encrypt]
    simp only [hsaltA, bind, Except.bind, hpack]
    rfl
  refine ⟨rfl, rfl, ?_, ?_, ?_, ?_⟩
  · rw [hdes]; rfl
  · intro des2 c salt h
    rw [hdes] at h
    simp only [Except.ok.injEq, Prod.mk.injEq] at h
    obtain ⟨h1, h2, h3⟩ := h
    refine ⟨by rw [← h1], h3.symm, ?_⟩
    rw [← h3]
    simp [beBytes_length]
  · rw [haes]; rfl
  · intro aes2 c salt h
    rw [haes] at h
    simp only [Except.ok.injEq, Prod.mk.injEq] at h
    obtain ⟨h1, h2, h3⟩ := h
    refine ⟨by rw [← h1], h3.symm, ?_, ?_, ?_⟩
    · rw [← h3]; exact hpack
    · rw [← h3, ← h2]
    · rw [← h3]; simp [beBytes_length]

/-- Witness for C8 at a concrete state (salt counter 5, engineBoots 2,
engineTime 9, identity cipher closures): the DES salt counter becomes 6. -/
theorem priv_salt_increment_and_iv_layout_witness :
    (⟨List.replicate 8 0, List.replicate 8 0, 6⟩ : DesCbc).salt
      = (5 + 1) % 2 ^ 32
  ∧ (beBytes 4 2 ++ beBytes 4 ((5 + 1) % 2 ^ 32))
      = beBytes 4 2 ++ beBytes 4 ((5 + 1) % 2 ^ 32)
  ∧ (beBytes 4 2 ++ beBytes 4 ((5 + 1) % 2 ^ 32)).length = 8 :=
  (priv_salt_increment_and_iv_layout (fun b => b) (fun _ d => d)
    ⟨List.replicate 8 0, List.replicate 8 0, 5⟩ ⟨List.replicate 16 0, 5⟩
    [] [] 2 9 (by norm_num) (by norm_num)).2.2.2.1
    ⟨List.replicate 8 0, List.replicate 8 0, 6⟩
    (List.flatten (cbcEncrypt (fun b => b)
      (listXor (List.replicate 8 0) (beBytes 4 2 ++ beBytes 4 6))
      (chunksOf8 (DesCbc.pad []))))
    (beBytes 4 2 ++ beBytes 4 ((5 + 1) % 2 ^ 32)) (by decide)

/-! ## Claim C3 -/

theorem listXor_length (a b : Bytes) :
    (listXor a b).length = min a.length b.length := by
  simp [listXor]

theorem listXor_cancel (a b : Bytes) (h : a.length = b.length) :
    listXor (listXor a b) b = a := by
  induction a generalizing b with
  | nil => simp [listXor]
  | cons x xs ih =>
    cases b with
    | nil => simp at h
    | cons y ys =>
      simp only [listXor, List.zipWith] at *
      rw [Nat.xor_cancel_right]
      simp only [List.cons.injEq, true_and]
      exact ih ys (by simpa using h)

theorem chunksOf8_block_cons (b l : Bytes) (hb : b.length = 8) :
    chunksOf8 (b ++ l) = b :: chunksOf8 l := by
  match b, hb with
  | [x1, x2, x3, x4, x5, x6, x7, x8], _ => rfl

theorem chunksOf8_flatten (bs : List Bytes) (h : ∀ b ∈ bs, b.length = 8) :
    chunksOf8 bs.flatten = bs := by
  induction bs with
  | nil => rfl
  | cons b rest ih =>
    rw [List.flatten_cons, chunksOf8_block_cons b rest.flatten (h b (by simp))]
    rw [ih (fun x hx => h x (by simp [hx]))]

theorem flatten_chunksOf8 (l : Bytes) (h : l.length % 8 = 0) :
    (chunksOf8 l).flatten = l := by
  by_cases hl : l = []
  · subst hl; rfl
  · have hpos : 0 < l.length := List.length_pos.mpr hl
    have h8 : 8 ≤ l.length := by omega
    have htake : (l.take 8).length = 8 := by
      rw [List.length_take]; omega
    have hsplit : l = l.take 8 ++ l.drop 8 := (List.take_append_drop 8 l).symm
    rw [hsplit, chunksOf8_block_cons _ _ htake, List.flatten_cons]
    have hdrop : (l.drop 8).length % 8 = 0 := by
      rw [List.length_drop]; omega
    rw [flatten_chunksOf8 (l.drop 8) hdrop]
termination_by l.length
decreasing_by
  simp only [List.length_drop]
  omega

theorem chunksOf8_mem_length (l : Bytes) (h : l.length % 8 = 0) :
    ∀ b ∈ chunksOf8 l, b.length = 8 := by
  by_cases hl : l = []
  · subst hl; intro b hb; simp [chunksOf8] at hb
  · have hpos : 0 < l.length := List.length_pos.mpr hl
    have h8 : 8 ≤ l.length := by omega
    have htake : (l.take 8).length = 8 := by
      rw [List.length_take]; omega
    have hsplit : l = l.take 8 ++ l.drop 8 := (List.take_append_drop 8 l).symm
    rw [hsplit, chunksOf8_block_cons _ _ htake]
    intro b hb
    rcases List.mem_cons.mp hb with hb | hb
    · rw [hb]; exact htake
    · exact chunksOf8_mem_length (l.drop 8)
        (by rw [List.length_drop]; omega) b hb
termination_by l.length
decreasing_by
  simp only [List.length_drop]
  omega

theorem flatten_blocks_length (bs : List Bytes)
    (h : ∀ b ∈ bs, b.length = 8) : bs.flatten.length = 8 * bs.length := by
  induction bs with
  | nil => rfl
  | cons b rest ih =>
    rw [List.flatten_cons, List.length_append, h b (by simp),
      ih (fun x hx => h x (by simp [hx]))]
    simp [List.length_cons]
    ring

theorem cbcEncrypt_length (E : Bytes → Bytes) (iv : Bytes) (bs : List Bytes) :
    (cbcEncrypt E iv bs).length = bs.length := by
  induction bs generalizing iv with
  | nil => rfl
  | cons b rest ih => simp [cbcEncrypt, ih]

theorem cbcEncrypt_mem_length (E : Bytes → Bytes)
    (hE : ∀ b, b.length = 8 → (E b).length = 8) (iv : Bytes) (bs : List Bytes)
    (hiv : iv.length = 8) (hbs : ∀ b ∈ bs, b.length = 8) :
    ∀ c ∈ cbcEncrypt E iv bs, c.length = 8 := by
  induction bs generalizing iv with
  | nil => intro c hc; simp [cbcEncrypt] at hc
  | cons b rest ih =>
    intro c hc
    simp only [cbcEncrypt, List.mem_cons] at hc
    have hhead : (E (listXor b iv)).length = 8 := by
      apply hE
      rw [listXor_length, hbs b (by simp), hiv]
      simp
    rcases hc with hc | hc
    · rw [hc]; exact hhead
    · exact ih (E (listXor b iv)) hhead
        (fun x hx => hbs x (by simp [hx])) c hc

theorem cbc_roundtrip (E D : Bytes → Bytes)
    (hE : ∀ b, b.length = 8 → (E b).length = 8)
    (hDE : ∀ b, b.length = 8 → D (E b) = b)
    (iv : Bytes) (bs : List Bytes) (hiv : iv.length = 8)
    (hbs : ∀ b ∈ bs, b.length = 8) :
    cbcDecrypt D iv (cbcEncrypt E iv bs) = bs := by
  induction bs generalizing iv with
  | nil => rfl
  | cons b rest ih =>
    have hxl : (listXor b iv).length = 8 := by
      rw [listXor_length, hbs b (by simp), hiv]
      simp
    simp only [cbcEncrypt, cbcDecrypt]
    rw [hDE _ hxl, listXor_cancel b iv (by rw [hbs b (by simp), hiv])]
    simp only [List.cons.injEq, true_and]
    exact ih (E (listXor b iv)) (hE _ hxl) (fun x hx => hbs x (by simp [hx]))

theorem cbcDecrypt_append (D : Bytes → Bytes) (iv : Bytes)
    (xs ys : List Bytes) :
    cbcDecrypt D iv (xs ++ ys)
      = cbcDecrypt D iv xs ++ cbcDecrypt D (xs.getLastD iv) ys := by
  induction xs generalizing iv with
  | nil => rfl
  | cons x rest ih =>
    simp only [List.cons_append, cbcDecrypt, List.getLastD_cons,
      List.append_eq]
    rw [ih]

theorem getLastD_length (bs : List Bytes) (iv : Bytes) (hiv : iv.length = 8)
    (hbs : ∀ b ∈ bs, b.length = 8) : (bs.getLastD iv).length = 8 := by
  induction bs generalizing iv with
  | nil => exact hiv
  | cons b t ih =>
    rw [List.getLastD_cons]
    exact ih b (hbs b (by simp)) (fun x hx => hbs x (by simp [hx]))

/-- C3 (amended): `encrypt` produces a ciphertext of the same length as the
zero-padded plaintext (so a multiple of 8), and `decrypt` on the same
instance returns the zero-padded plaintext *followed by 8 extra bytes* —
the source pads the ciphertext with a full zero block before CBC-decrypting
— and raises `DecryptionError` exactly when the ciphertext length is not a
multiple of 8.  The DES block permutation is abstract: `E` with inverse `D`
on 8-byte blocks. -/
theorem desCbc_encrypt_decrypt_roundtrip (E D : Bytes → Bytes)
    (hE : ∀ b, b.length = 8 → (E b).length = 8)
    (hD : ∀ b, b.length = 8 → (D b).length = 8)
    (hDE : ∀ b, b.length = 8 → D (E b) = b)
    (des : DesCbc) (hpre : des.preIV.length = 8)
    (p : Bytes) (engineBoots engineTime : Nat) (hb : engineBoots < 2 ^ 32) :
    (∀ (des2 : DesCbc) (c salt : Bytes),
      DesCbc.encrypt E des p engineBoots engineTime = .ok (des2, c, salt) →
        c.length = (DesCbc.pad p).length
      ∧ c.length % 8 = 0
      ∧ ∃ extra, extra.length = 8
          ∧ DesCbc.decrypt D des2 c engineBoots engineTime salt
              = .ok (DesCbc.pad p ++ extra))
  ∧ (∀ (c2 salt2 : Bytes),
      DesCbc.decrypt D des c2 engineBoots engineTime salt2
          = .error .decryptionError ↔ c2.length % 8 ≠ 0) := by
  have hb4 : engineBoots < 256 ^ 4 := by
    have h256 : (256 : Nat) ^ 4 = 2 ^ 32 := by norm_num
    rw [h256]; exact hb
  have hdm : (des.salt + 1) % 2 ^ 32 < 256 ^ 4 := by
    have h256 : (256 : Nat) ^ 4 = 2 ^ 32 := by norm_num
    rw [h256]; exact Nat.mod_lt _ (by norm_num)
  have hboots : toBytesBE (DesCbc.BLOCKLEN - DesCbc.SALTLEN) engineBoots
      = .ok (beBytes 4 engineBoots) := by
    rw [toBytesBE,
      if_pos (show engineBoots < 256 ^ (DesCbc.BLOCKLEN - DesCbc.SALTLEN)
        from hb4)]
    rfl
  have hsaltB : toBytesBE DesCbc.SALTLEN ((des.salt + 1) % DesCbc.SALTWRAP)
      = .ok (beBytes 4 ((des.salt + 1) % 2 ^ 32)) := by
    rw [toBytesBE,
      if_pos (show (des.salt + 1) % DesCbc.SALTWRAP < 256 ^ DesCbc.SALTLEN
        from hdm)]
    rfl
  have hdes : DesCbc.encrypt E des p engineBoots engineTime
      = .ok ({ des with salt := (des.salt + 1) % 2 ^ 32 },
             (cbcEncrypt E
               (listXor des.preIV (beBytes 4 engineBoots
                  ++ beBytes 4 ((des.salt + 1) % 2 ^ 32)))
               (chunksOf8 (DesCbc.pad p))).flatten,
             beBytes 4 engineBoots ++ beBytes 4 ((des.salt + 1) % 2 ^ 32)) := by
    rw [DesCbc.encrypt]
    simp only [hboots, hsaltB, bind, Except.bind]
    rfl
  have hsaltlen : (beBytes 4 engineBoots
      ++ beBytes 4 ((des.salt + 1) % 2 ^ 32)).length = 8 := by
    simp [beBytes_length]
  have hiv : (listXor des.preIV (beBytes 4 engineBoots
      ++ beBytes 4 ((des.salt + 1) % 2 ^ 32))).length = 8 := by
    rw [listXor_length, hpre, hsaltlen]
    simp
  have hpadmod : (DesCbc.pad p).length % 8 = 0 := by
    simp only [DesCbc.pad, DesCbc.BLOCKLEN, List.length_append,
      List.length_replicate]
    omega
  have hblocks := chunksOf8_mem_length (DesCbc.pad p) hpadmod
  have hencblocks := cbcEncrypt_mem_length E hE _ (chunksOf8 (DesCbc.pad p))
    hiv hblocks
  have hpadc : (DesCbc.pad p).length = 8 * (chunksOf8 (DesCbc.pad p)).length := by
    conv_lhs => rw [← flatten_chunksOf8 (DesCbc.pad p) hpadmod]
    exact flatten_blocks_length _ hblocks
  have hclen : (cbcEncrypt E
        (listXor des.preIV (beBytes 4 engineBoots
          ++ beBytes 4 ((des.salt + 1) % 2 ^ 32)))
        (chunksOf8 (DesCbc.pad p))).flatten.length = (DesCbc.pad p).length := by
    rw [flatten_blocks_length _ hencblocks, cbcEncrypt_length, hpadc]
  constructor
  · intro des2 c salt h
    rw [hdes] at h
    simp only [Except.ok.injEq, Prod.mk.injEq] at h
    obtain ⟨h1, h2, h3⟩ := h
    subst h1
    subst h2
    subst h3
    refine ⟨hclen, by rw [hclen]; exact hpadmod, ?_⟩
    refine ⟨listXor
      (D (List.replicate 8 0))
      ((cbcEncrypt E
        (listXor des.preIV (beBytes 4 engineBoots
          ++ beBytes 4 ((des.salt + 1) % 2 ^ 32)))
        (chunksOf8 (DesCbc.pad p))).getLastD
        (listXor des.preIV (beBytes 4 engineBoots
          ++ beBytes 4 ((des.salt + 1) % 2 ^ 32)))), ?_, ?_⟩
    · rw [listXor_length, hD _ (by simp),
        getLastD_length _ _ hiv hencblocks]
      simp
    · rw [DesCbc.decrypt,
        if_neg (by
          show ¬((cbcEncrypt E _ (chunksOf8 (DesCbc.pad p))).flatten.length
            % DesCbc.BLOCKLEN ≠ 0)
          rw [hclen]
          simp [DesCbc.BLOCKLEN, hpadmod])]
      have hpadC : DesCbc.pad (cbcEncrypt E
            (listXor des.preIV (beBytes 4 engineBoots
              ++ beBytes 4 ((des.salt + 1) % 2 ^ 32)))
            (chunksOf8 (DesCbc.pad p))).flatten
          = (cbcEncrypt E
              (listXor des.preIV (beBytes 4 engineBoots
                ++ beBytes 4 ((des.salt + 1) % 2 ^ 32)))
              (chunksOf8 (DesCbc.pad p))).flatten ++ List.replicate 8 0 := by
        rw [DesCbc.pad]
        have : (cbcEncrypt E
            (listXor des.preIV (beBytes 4 engineBoots
              ++ beBytes 4 ((des.salt + 1) % 2 ^ 32)))
            (chunksOf8 (DesCbc.pad p))).flatten.length % DesCbc.BLOCKLEN = 0 := by
          rw [hclen]; exact hpadmod
        rw [this]
        rfl
      rw [hpadC]
      have hflat : (cbcEncrypt E
            (listXor des.preIV (beBytes 4 engineBoots
              ++ beBytes 4 ((des.salt + 1) % 2 ^ 32)))
            (chunksOf8 (DesCbc.pad p))).flatten ++ List.replicate 8 0
          = ((cbcEncrypt E
              (listXor des.preIV (beBytes 4 engineBoots
                ++ beBytes 4 ((des.salt + 1) % 2 ^ 32)))
              (chunksOf8 (DesCbc.pad p))) ++ [List.replicate 8 0]).flatten := by
        rw [List.flatten_append]
        simp
      rw [hflat, chunksOf8_flatten _ (by
        intro b hb
        rcases List.mem_append.mp hb with hb | hb
        · exact hencblocks b hb
        · simp at hb
          rw [hb]
          simp)]
      have hcomp : DesCbc.computeIV
          { des with salt := (des.salt + 1) % 2 ^ 32 }
          (beBytes 4 engineBoots ++ beBytes 4 ((des.salt + 1) % 2 ^ 32))
          = listXor des.preIV (beBytes 4 engineBoots
              ++ beBytes 4 ((des.salt + 1) % 2 ^ 32)) := rfl
      rw [hcomp, cbcDecrypt_append,
        cbc_roundtrip E D hE hDE _ _ hiv hblocks]
      simp only [cbcDecrypt]
      rw [List.flatten_append, flatten_chunksOf8 _ hpadmod]
      simp
  · intro c2 salt2
    constructor
    · intro h
      by_cases hm : c2.length % DesCbc.BLOCKLEN ≠ 0
      · exact hm
      · rw [DesCbc.decrypt, if_neg hm] at h
        exact absurd h (by simp)
    · intro hm
      rw [DesCbc.decrypt,
        if_pos (show c2.length % DesCbc.BLOCKLEN ≠ 0 from hm)]

/-- Counterexample to C3 as stated: with the identity block permutation
standing for DES (the discrepancy is length-structural and holds for any
block cipher), encrypting the empty plaintext on an all-zero-key instance
with salt counter 5 yields an 8-byte ciphertext, but `decrypt` on the same
instance returns 16 bytes — the zero-padded plaintext followed by an extra
block — because the source pads the *ciphertext* before CBC-decrypting.
So `decrypt` does not return exactly the zero-padded plaintext. -/
theorem desCbc_decrypt_not_exact_padded_plaintext :
    DesCbc.encrypt (fun b => b)
        ⟨List.replicate 8 0, List.replicate 8 0, 5⟩ [] 0 0
      = .ok (⟨List.replicate 8 0, List.replicate 8 0, 6⟩,
             [0, 0, 0, 0, 0, 0, 0, 6], [0, 0, 0, 0, 0, 0, 0, 6])
  ∧ DesCbc.decrypt (fun b => b) ⟨List.replicate 8 0, List.replicate 8 0, 6⟩
        [0, 0, 0, 0, 0, 0, 0, 6] 0 0 [0, 0, 0, 0, 0, 0, 0, 6]
      = .ok (DesCbc.pad [] ++ [0, 0, 0, 0, 0, 0, 0, 6])
  ∧ DesCbc.pad [] ++ [0, 0, 0, 0, 0, 0, 0, 6] ≠ DesCbc.pad [] := by
  refine ⟨by decide, by decide, by decide⟩

/-- Witness for the amended C3: the concrete round-trip above, obtained by
applying the theorem at the identity block permutation. -/
theorem desCbc_encrypt_decrypt_roundtrip_witness :
    ([0, 0, 0, 0, 0, 0, 0, 6] : Bytes).length = (DesCbc.pad []).length
  ∧ ([0, 0, 0, 0, 0, 0, 0, 6] : Bytes).length % 8 = 0
  ∧ ∃ extra, extra.length = 8
      ∧ DesCbc.decrypt (fun b => b)
          ⟨List.replicate 8 0, List.replicate 8 0, 6⟩
          [0, 0, 0, 0, 0, 0, 0, 6] 0 0 [0, 0, 0, 0, 0, 0, 0, 6]
          = .ok (DesCbc.pad [] ++ extra) :=
  (desCbc_encrypt_decrypt_roundtrip (fun b => b) (fun b => b)
    (fun _ hb => hb) (fun _ hb => hb) (fun _ _ => rfl)
    ⟨List.replicate 8 0, List.replicate 8 0, 5⟩ (by decide)
    [] 0 0 (by decide)).1
    ⟨List.replicate 8 0, List.replicate 8 0, 6⟩
    [0, 0, 0, 0, 0, 0, 0, 6] [0, 0, 0, 0, 0, 0, 0, 6] (by decide)
